import Mathlib

/-!
# hagl_pico_mipi: the MIPI DCS display sequencer and the double-buffer backend

A shallow embedding of `src/mipi_display.c` and `src/hagl_hal_double.c`.

* The hardware is modelled by the trace of calls the code makes on it
  (`Event`): every operation returns the list of events it performs, in
  program order, together with the new `mipi_display_config_t`.
* Machine integers are natural numbers, reduced modulo `2^16` / `2^32`
  at the places where the C code stores into `uint16_t` / `uint32_t` /
  `size_t` (the target, the RP2040, has a 32-bit `int` and `size_t`).
* The transmit busy-waits (`spi_is_writable`, `SPI_SSPSR_BSY_BITS`) are waits
  on the SPI peripheral, which always drains; they are modelled as returning.
  The wait on the tearing-effect pin depends on an input and is modelled
  on an explicit list of pin readings.
* `mipi_dcs.h` is not among the sources: the DCS command macros are
  modelled by name (`Dcs`), distinct names standing for distinct codes.
-/

namespace HaglPicoMipi

/-! ## Data model -/

/-- Modelled from the spec: the header `mipi_dcs.h` that defines the `MIPI_DCS_*`
command codes is not among the sources. The commands that `mipi_display.c`
sends (the wire protocol list of the spec) are modelled by macro name,
distinct names standing for distinct command bytes. -/
inductive Dcs where
  | SOFT_RESET
  | SET_ADDRESS_MODE
  | SET_PIXEL_FORMAT
  | SET_TEAR_ON
  | ENTER_INVERT_MODE
  | EXIT_INVERT_MODE
  | EXIT_SLEEP_MODE
  | SET_DISPLAY_ON
  | SET_COLUMN_ADDRESS
  | SET_PAGE_ADDRESS
  | WRITE_MEMORY_START
  deriving DecidableEq, Repr

/-- The pin functions passed to `gpio_set_function`: `GPIO_FUNC_SIO` (software
controlled pin) and `GPIO_FUNC_SPI`. -/
inductive GpioFunc where
  | software
  | GPIO_FUNC_SPI
  deriving DecidableEq, Repr

/-- One call on the hardware (Pico SDK), as made by the code. -/
inductive Event where
  /-- The call `gpio_put(pin, value)`. -/
  | gpio_put (pin : Int) (value : Nat)
  /-- The call `gpio_get(pin)` and the level it returned. -/
  | gpio_get (pin : Int) (level : Bool)
  /-- The call `gpio_set_function(pin, fn)`. -/
  | gpio_set_function (pin : Int) (fn : GpioFunc)
  /-- The call `gpio_set_dir(pin, out)`. -/
  | gpio_set_dir (pin : Int) (out : Bool)
  /-- The call `gpio_pull_up(pin)`. -/
  | gpio_pull_up (pin : Int)
  /-- The call `spi_init(spi, freq)`. -/
  | spi_init (freq : Nat)
  /-- The call `spi_set_baudrate(spi, freq)`. -/
  | spi_set_baudrate (freq : Nat)
  /-- The call `spi_set_format(spi, bits, ...)`. -/
  | spi_set_format (bits : Nat)
  /-- The call `spi_write_blocking(spi, &command, 1)`: one command byte. -/
  | spi_write_blocking (command : Dcs)
  /-- A store `spi_get_hw(spi)->dr = value`: one data word on the bus. -/
  | spi_dr (value : Nat)
  /-- The wait `while (sr & SPI_SSPSR_BSY_BITS) {}`. -/
  | spi_wait_idle
  /-- The store `icr = SPI_SSPICR_RORIC_BITS`. -/
  | spi_clear_overrun
  /-- The call `dma_channel_wait_for_finish_blocking(dma_channel)`. -/
  | dma_channel_wait_for_finish_blocking
  /-- The call `dma_channel_set_trans_count(dma_channel, length, false)`. -/
  | dma_channel_set_trans_count (length : Nat)
  /-- The call `dma_channel_set_read_addr(dma_channel, buffer, true)`, which
  starts the transfer; `buffer` is the memory the pointer designates. -/
  | dma_channel_set_read_addr (buffer : List Nat)
  /-- The call `dma_claim_unused_channel(true)`. -/
  | dma_claim_unused_channel
  /-- The call `dma_channel_set_config` with the transfer size in bits and
  the SPI instance whose transmit data request paces the channel. -/
  | dma_channel_set_config (bits : Nat) (dreq_spi_tx : Nat)
  /-- The call `dma_channel_set_write_addr(dma_channel, &dr, false)`. -/
  | dma_channel_set_write_addr
  /-- The call `sleep_ms(ms)`. -/
  | sleep_ms (ms : Nat)
  deriving DecidableEq, Repr

/-- The struct `hagl_window_t` of the cached clip window (four `uint16_t`). -/
structure hagl_window_t where
  x0 : Nat
  y0 : Nat
  x1 : Nat
  y1 : Nat
  deriving DecidableEq, Repr

/-- The fields of `hagl_bitmap_t` that the backend reads. -/
structure hagl_bitmap_t where
  width : Nat
  height : Nat
  depth : Nat
  buffer : List Nat
  deriving DecidableEq, Repr

/-- The struct `mipi_display_config_t` of `hagl_hal.h`. The back buffer
pointer `bb` is `none` while it is null. -/
structure mipi_display_config_t where
  spi_freq : Nat
  /-- The SPI instance: `0` for `spi0`, anything else for `spi1`. -/
  spi : Nat
  pin_cs : Int
  pin_dc : Int
  pin_rst : Int
  pin_bl : Int
  pin_clk : Int
  pin_mosi : Int
  pin_miso : Int
  pin_power : Int
  pin_te : Int
  pixel_format : Nat
  address_mode : Nat
  width : Nat
  height : Nat
  offset_x : Nat
  offset_y : Nat
  depth : Nat
  invert : Int
  init_spi : Int
  prev_clip : hagl_window_t
  bb : Option hagl_bitmap_t
  deriving DecidableEq, Repr

/-- The buffering strategy selected at build time: exactly one of
`HAGL_HAL_USE_SINGLE_BUFFER`, `HAGL_HAL_USE_DOUBLE_BUFFER`,
`HAGL_HAL_USE_TRIPLE_BUFFER` (each backend file is compiled under one). -/
inductive Buffering where
  | HAGL_HAL_USE_SINGLE_BUFFER
  | HAGL_HAL_USE_DOUBLE_BUFFER
  | HAGL_HAL_USE_TRIPLE_BUFFER
  deriving DecidableEq, Repr

/-- The compile-time configuration: the preprocessor symbols the code
branches on, and the constants of headers that are not among the sources. -/
structure Build where
  buffering : Buffering
  HAGL_HAL_USE_DMA : Bool
  HAGL_HAL_PIXEL_SIZE : Nat
  MIPI_DISPLAY_WIDTH : Nat
  MIPI_DISPLAY_HEIGHT : Nat
  /-- The data byte `MIPI_DCS_SET_TEAR_ON_VSYNC` of `mipi_dcs.h`. -/
  MIPI_DCS_SET_TEAR_ON_VSYNC : Nat
  /-- The size of `hagl_color_t` in bytes (`hagl_hal_color.h`). -/
  sizeof_hagl_color_t : Nat
  deriving DecidableEq, Repr

/-- The symbol `HAGL_HAS_HAL_BACK_BUFFER` of `hagl_hal.h`: defined by the double and
triple buffer strategies, undefined by the single buffer one. -/
def Build.HAGL_HAS_HAL_BACK_BUFFER (b : Build) : Bool :=
  match b.buffering with
  | .HAGL_HAL_USE_SINGLE_BUFFER => false
  | .HAGL_HAL_USE_DOUBLE_BUFFER => true
  | .HAGL_HAL_USE_TRIPLE_BUFFER => true

/-- What an operation does: the config it leaves, the hardware calls it
made, and the value it returns. -/
structure Out (α : Type) where
  cfg : mipi_display_config_t
  trace : List Event
  ret : α

/-- Conversion to `uint16_t`. -/
def u16 (n : Nat) : Nat := n % 65536

/-- Conversion to `uint32_t` (and to the target's 32-bit `size_t`). -/
def u32 (n : Nat) : Nat := n % 4294967296

/-- The constant `SIZE_MAX` of the target: `(size_t) -1`. -/
def SIZE_MAX : Nat := 4294967295

/-! ## Transport primitives (`mipi_display.c`) -/

/-- The function `htons`: `rev16` swaps the two bytes of a 16-bit value. -/
def htons (i : Nat) : Nat := (i % 256) * 256 + (i / 256) % 256

/-- The function `mipi_display_write_command`: DC low, CS low, one command byte, CS high. -/
def mipi_display_write_command (cfg : mipi_display_config_t) (command : Dcs) : List Event :=
  [.gpio_put cfg.pin_dc 0, .gpio_put cfg.pin_cs 0, .spi_write_blocking command,
   .gpio_put cfg.pin_cs 1]

/-- The transmit loop of `mipi_display_write_data`: `data[i]` for `i < length`. -/
def write_data_loop (data : List Nat) (length : Nat) : List Event :=
  (List.range length).map (fun i => Event.spi_dr (data.getD i 0))

/-- The function `mipi_display_write_data`: nothing for a zero length; otherwise
DC high, CS low, the bytes, the wait for the shifter, the overrun clear, CS high. -/
def mipi_display_write_data (cfg : mipi_display_config_t) (data : List Nat)
    (length : Nat) : List Event :=
  if length = 0 then []
  else
    [.gpio_put cfg.pin_dc 1, .gpio_put cfg.pin_cs 0]
      ++ write_data_loop data length
      ++ [.spi_wait_idle, .spi_clear_overrun, .gpio_put cfg.pin_cs 1]

/-- The function `mipi_display_write_data_dma`: nothing for a zero length; otherwise
DC high, CS low, wait for the channel, program the count, start the transfer. -/
def mipi_display_write_data_dma (cfg : mipi_display_config_t) (buffer : List Nat)
    (length : Nat) : List Event :=
  if length = 0 then []
  else
    [.gpio_put cfg.pin_dc 1, .gpio_put cfg.pin_cs 0,
     .dma_channel_wait_for_finish_blocking,
     .dma_channel_set_trans_count length,
     .dma_channel_set_read_addr buffer]

/-! ## Address window -/

/-- The function `mipi_display_set_address_xyxy`. The parameters are `uint16_t`; the
sums with the offsets are stored back into them. -/
def mipi_display_set_address_xyxy (cfg : mipi_display_config_t)
    (x1 y1 x2 y2 : Nat) : Out Unit :=
  let x1 := u16 (x1 + cfg.offset_x)
  let y1 := u16 (y1 + cfg.offset_y)
  let x2 := u16 (x2 + cfg.offset_x)
  let y2 := u16 (y2 + cfg.offset_y)
  let col : Out Unit :=
    if cfg.prev_clip.x0 ≠ x1 ∨ cfg.prev_clip.x1 ≠ x2 then
      { cfg := { cfg with prev_clip := { cfg.prev_clip with x0 := x1, x1 := x2 } }
        trace := mipi_display_write_command cfg .SET_COLUMN_ADDRESS
          ++ mipi_display_write_data cfg
              [(x1 >>> 8) % 256, (x1 &&& 0xff) % 256, (x2 >>> 8) % 256, (x2 &&& 0xff) % 256] 4
        ret := () }
    else { cfg := cfg, trace := [], ret := () }
  let page : Out Unit :=
    if col.cfg.prev_clip.y0 ≠ y1 ∨ col.cfg.prev_clip.y1 ≠ y2 then
      { cfg := { col.cfg with prev_clip := { col.cfg.prev_clip with y0 := y1, y1 := y2 } }
        trace := mipi_display_write_command col.cfg .SET_PAGE_ADDRESS
          ++ mipi_display_write_data col.cfg
              [(y1 >>> 8) % 256, (y1 &&& 0xff) % 256, (y2 >>> 8) % 256, (y2 &&& 0xff) % 256] 4
        ret := () }
    else { cfg := col.cfg, trace := [], ret := () }
  { cfg := page.cfg
    trace := col.trace ++ page.trace
      ++ mipi_display_write_command page.cfg .WRITE_MEMORY_START
    ret := () }

/-- The function `mipi_display_set_address_xy`: the single-point variant; it sends
both commands with the start coordinate only and does not touch `prev_clip`. -/
def mipi_display_set_address_xy (cfg : mipi_display_config_t) (x1 y1 : Nat) : Out Unit :=
  let x1 := u16 (x1 + cfg.offset_x)
  let y1 := u16 (y1 + cfg.offset_y)
  { cfg := cfg
    trace := mipi_display_write_command cfg .SET_COLUMN_ADDRESS
      ++ mipi_display_write_data cfg [(x1 >>> 8) % 256, (x1 &&& 0xff) % 256] 2
      ++ mipi_display_write_command cfg .SET_PAGE_ADDRESS
      ++ mipi_display_write_data cfg [(y1 >>> 8) % 256, (y1 &&& 0xff) % 256] 2
      ++ mipi_display_write_command cfg .WRITE_MEMORY_START
    ret := () }

/-! ## Initialisation -/

/-- The function `mipi_display_dma_init`: claim a channel, 8-bit transfers paced by
the transmit data request of the bus, destination the SPI data register. -/
def mipi_display_dma_init (cfg : mipi_display_config_t) : List Event :=
  [.dma_claim_unused_channel,
   .dma_channel_set_config 8 (if cfg.spi = 0 then 0 else 1),
   .dma_channel_set_write_addr]

/-- The function `mipi_display_spi_master_init`: skipped unless `init_spi > 0`. -/
def mipi_display_spi_master_init (cfg : mipi_display_config_t) : List Event :=
  if cfg.init_spi > 0 then
    [.gpio_set_function cfg.pin_dc .software, .gpio_set_dir cfg.pin_dc true,
     .gpio_set_function cfg.pin_clk .GPIO_FUNC_SPI,
     .gpio_set_function cfg.pin_mosi .GPIO_FUNC_SPI]
      ++ (if cfg.pin_miso > 0 then [.gpio_set_function cfg.pin_miso .GPIO_FUNC_SPI] else [])
      ++ [.gpio_put cfg.pin_cs 1, .spi_init cfg.spi_freq, .spi_set_format 8,
          .spi_set_baudrate cfg.spi_freq]
  else []

/-- The part of `mipi_display_init` before the default viewport is set: bus
setup, reset pulse, the minimal init commands, backlight, power, vsync pin. -/
def mipi_display_init_head (b : Build) (cfg : mipi_display_config_t) : List Event :=
  mipi_display_spi_master_init cfg
    ++ [.sleep_ms 100]
    ++ (if cfg.pin_rst > 0 then
          [.gpio_set_function cfg.pin_rst .software, .gpio_set_dir cfg.pin_rst true,
           .gpio_put cfg.pin_rst 0, .sleep_ms 100, .gpio_put cfg.pin_rst 1, .sleep_ms 100]
        else [])
    ++ mipi_display_write_command cfg .SOFT_RESET
    ++ [.sleep_ms 200]
    ++ mipi_display_write_command cfg .SET_ADDRESS_MODE
    ++ mipi_display_write_data cfg [cfg.address_mode] 1
    ++ mipi_display_write_command cfg .SET_PIXEL_FORMAT
    ++ mipi_display_write_data cfg [cfg.pixel_format] 1
    ++ (if cfg.pin_te > 0 then
          mipi_display_write_command cfg .SET_TEAR_ON
            ++ mipi_display_write_data cfg [b.MIPI_DCS_SET_TEAR_ON_VSYNC] 1
        else [])
    ++ (if cfg.invert > 0 then mipi_display_write_command cfg .ENTER_INVERT_MODE
        else mipi_display_write_command cfg .EXIT_INVERT_MODE)
    ++ mipi_display_write_command cfg .EXIT_SLEEP_MODE
    ++ [.sleep_ms 200]
    ++ mipi_display_write_command cfg .SET_DISPLAY_ON
    ++ [.sleep_ms 200]
    ++ (if cfg.pin_bl > 0 then
          [.gpio_set_function cfg.pin_bl .software, .gpio_set_dir cfg.pin_bl true,
           .gpio_put cfg.pin_bl 1]
        else [])
    ++ (if cfg.pin_power > 0 then
          [.gpio_set_function cfg.pin_power .software, .gpio_set_dir cfg.pin_power true,
           .gpio_put cfg.pin_power 1]
        else [])
    ++ (if cfg.pin_te > 0 then
          [.gpio_set_function cfg.pin_te .software, .gpio_set_dir cfg.pin_te false,
           .gpio_pull_up cfg.pin_te]
        else [])

/-- The function `mipi_display_init`. The default viewport is
`(0, 0)-(width - 1, height - 1)`, the differences converted to `uint16_t`
(`width - 1` is `65535` for a zero width). The source calls
`mipi_display_dma_init()` without its argument; the call is modelled with
the config passed. -/
def mipi_display_init (b : Build) (cfg : mipi_display_config_t) : Out Unit :=
  let addr := mipi_display_set_address_xyxy cfg 0 0
    (u16 (cfg.width + 65535)) (u16 (cfg.height + 65535))
  { cfg := addr.cfg
    trace := mipi_display_init_head b cfg ++ addr.trace
      ++ (if b.HAGL_HAS_HAL_BACK_BUFFER && b.HAGL_HAL_USE_DMA then
            mipi_display_dma_init addr.cfg
          else [])
    ret := () }

/-! ## Region operations -/

/-- The loop `while (size--) { ... dr = htons(*color); }` of `mipi_display_fill_xywh`
together with the value `size` holds when the loop is left: the test that
finds `size` zero still decrements it, and a `size_t` zero wraps to
`SIZE_MAX`. -/
def fill_loop (color : Nat) : Nat → List Event × Nat
  | 0 => ([], SIZE_MAX)
  | size + 1 =>
    let rest := fill_loop color size
    (Event.spi_dr (htons color) :: rest.1, rest.2)

/-- The function `mipi_display_fill_xywh`; `color` is the `uint16_t` that `_color`
points to. -/
def mipi_display_fill_xywh (cfg : mipi_display_config_t) (x1 y1 w h : Nat)
    (color : Nat) : Out Nat :=
  if w = 0 ∨ h = 0 then { cfg := cfg, trace := [], ret := 0 }
  else
    let x2 := x1 + w - 1
    let y2 := y1 + h - 1
    let size := u32 (w * h)
    let addr := mipi_display_set_address_xyxy cfg x1 y1 (u16 x2) (u16 y2)
    let loop := fill_loop color size
    { cfg := addr.cfg
      trace := addr.trace
        ++ [.gpio_put cfg.pin_dc 1, .gpio_put cfg.pin_cs 0, .spi_set_format 16]
        ++ loop.1
        ++ [.spi_wait_idle, .spi_clear_overrun, .spi_set_format 8, .gpio_put cfg.pin_cs 1]
      ret := loop.2 }

/-- The data phase of `mipi_display_write_xywh` as the preprocessor selects it:
synchronous in the single buffer build, DMA or synchronous in the back
buffer builds. -/
def write_xywh_data (b : Build) (cfg : mipi_display_config_t) (buffer : List Nat)
    (length : Nat) : List Event :=
  match b.buffering with
  | .HAGL_HAL_USE_SINGLE_BUFFER => mipi_display_write_data cfg buffer length
  | _ =>
    if b.HAGL_HAL_USE_DMA then mipi_display_write_data_dma cfg buffer length
    else mipi_display_write_data cfg buffer length

/-- The function `mipi_display_write_xywh`. The length handed to the data phase is
`size * depth / 8` and the value returned is `size * (depth / 8)`, both in
`uint32_t` arithmetic. -/
def mipi_display_write_xywh (b : Build) (cfg : mipi_display_config_t) (x1 y1 w h : Nat)
    (buffer : List Nat) : Out Nat :=
  if w = 0 ∨ h = 0 then { cfg := cfg, trace := [], ret := 0 }
  else
    let x2 := x1 + w - 1
    let y2 := y1 + h - 1
    let size := u32 (w * h)
    let addr := mipi_display_set_address_xyxy cfg x1 y1 (u16 x2) (u16 y2)
    { cfg := addr.cfg
      trace := addr.trace ++ write_xywh_data b addr.cfg buffer (u32 (size * cfg.depth) / 8)
      ret := u32 (size * (cfg.depth / 8)) }

/-- The function `mipi_display_write_xy`. -/
def mipi_display_write_xy (cfg : mipi_display_config_t) (x1 y1 : Nat)
    (buffer : List Nat) : Out Nat :=
  let addr := mipi_display_set_address_xy cfg x1 y1
  { cfg := addr.cfg
    trace := addr.trace ++ mipi_display_write_data addr.cfg buffer (cfg.depth / 8)
    ret := cfg.depth / 8 }

/-! ## Double buffer backend (`hagl_hal_double.c`) -/

/-- The function `hagl_hal_init`, as far as the display config and the back buffer
go: `mipi_display_init`, then `prev_clip` is zeroed, the back buffer is
allocated (zero-filled, `width * height * (depth / 8)` bytes) unless the
backend supplies one, and the bitmap `bb` is initialised over it
(`hagl_bitmap_init` of the HAGL library stores the dimensions and the buffer).
Returns the back buffer. -/
def hagl_hal_init (b : Build) (cfg : mipi_display_config_t)
    (backend_buffer : Option (List Nat)) : Out (List Nat) :=
  let init := mipi_display_init b cfg
  let buffer := match backend_buffer with
    | some buf => buf
    | none => List.replicate (u32 (cfg.width * cfg.height * (cfg.depth / 8))) 0
  { cfg := { init.cfg with
               prev_clip := { x0 := 0, y0 := 0, x1 := 0, y1 := 0 }
               bb := some { width := cfg.width, height := cfg.height,
                            depth := cfg.depth, buffer := buffer } }
    trace := init.trace
    ret := buffer }

/-- The loop `while (!gpio_get(pin_te)) {}` run on the successive levels the pin
reads: it ends with the first asserted reading; `none` when the readings
end before the pin was asserted (the loop is still spinning). -/
def wait_te (pin : Int) : List Bool → Option (List Event)
  | [] => none
  | level :: rest =>
    if level then some [Event.gpio_get pin true]
    else (wait_te pin rest).map (fun t => Event.gpio_get pin false :: t)

/-- The macro `HAGL_PICO_MIPI_DISPLAY_WIDTH`. -/
def Build.HAGL_PICO_MIPI_DISPLAY_WIDTH (b : Build) : Nat :=
  b.MIPI_DISPLAY_WIDTH / b.HAGL_HAL_PIXEL_SIZE

/-- The macro `HAGL_PICO_MIPI_DISPLAY_HEIGHT`. -/
def Build.HAGL_PICO_MIPI_DISPLAY_HEIGHT (b : Build) : Nat :=
  b.MIPI_DISPLAY_HEIGHT / b.HAGL_HAL_PIXEL_SIZE

/-- The bytes of the `hagl_color_t` at index `i` of the back buffer. -/
def color_at (b : Build) (buffer : List Nat) (i : Nat) : List Nat :=
  (List.range b.sizeof_hagl_color_t).map
    (fun k => buffer.getD (i * b.sizeof_hagl_color_t + k) 0)

/-- The array `line` after the inner loop of `flush` for logical row `y`:
every pixel of the row twice (`line[x * 2]` and `line[x * 2 + 1]`), as bytes. -/
def flush_line (b : Build) (buffer : List Nat) (y : Nat) : List Nat :=
  (List.range b.HAGL_PICO_MIPI_DISPLAY_WIDTH).flatMap
    (fun x =>
      color_at b buffer (y * b.HAGL_PICO_MIPI_DISPLAY_WIDTH + x)
        ++ color_at b buffer (y * b.HAGL_PICO_MIPI_DISPLAY_WIDTH + x))

/-- The outer loop of `flush` for `HAGL_HAL_PIXEL_SIZE == 2` over the rows `ys`:
two writes of `line`, to the rows `y * 2` and `y * 2 + 1`, added to `sent`. -/
def flush_scanlines (b : Build) (buffer : List Nat) : List Nat → Out Nat → Out Nat
  | [], acc => acc
  | y :: ys, acc =>
    let line := flush_line b buffer y
    let w1 := mipi_display_write_xywh b acc.cfg 0 (u16 (y * 2))
      (u16 b.MIPI_DISPLAY_WIDTH) 1 line
    let w2 := mipi_display_write_xywh b w1.cfg 0 (u16 (y * 2 + 1))
      (u16 b.MIPI_DISPLAY_WIDTH) 1 line
    flush_scanlines b buffer ys
      { cfg := w2.cfg
        trace := acc.trace ++ w1.trace ++ w2.trace
        ret := u32 (u32 (acc.ret + w1.ret) + w2.ret) }

/-- The function `flush` of the double buffer backend, on the levels `readings`
that the tearing-effect pin reads. `none` when the wait for the pin does
not end, when `bb` is null, when a `uint16_t` loop counter cannot reach
its bound, or for a pixel size that compiles no `return`. The source of
the pixel size 2 branch reads `bb.buffer`; it is modelled as `bb->buffer`. -/
def flush (b : Build) (cfg : mipi_display_config_t) (readings : List Bool) :
    Option (Out Nat) :=
  match (if cfg.pin_te > 0 then wait_te cfg.pin_te readings else some []) with
  | none => none
  | some waited =>
    match cfg.bb with
    | none => none
    | some bb =>
      if b.HAGL_HAL_PIXEL_SIZE = 1 then
        let w := mipi_display_write_xywh b cfg 0 0 bb.width bb.height bb.buffer
        some { cfg := w.cfg, trace := waited ++ w.trace, ret := w.ret }
      else if b.HAGL_HAL_PIXEL_SIZE = 2 then
        if b.HAGL_PICO_MIPI_DISPLAY_HEIGHT < 65536
            ∧ b.HAGL_PICO_MIPI_DISPLAY_WIDTH < 65536 then
          some (flush_scanlines b bb.buffer (List.range b.HAGL_PICO_MIPI_DISPLAY_HEIGHT)
            { cfg := cfg, trace := waited, ret := 0 })
        else none
      else none

/-! ## Reading a trace -/

/-- The command bytes of a trace, in order. -/
def commands (t : List Event) : List Dcs :=
  t.filterMap (fun e => match e with
    | .spi_write_blocking c => some c
    | _ => none)

/-- The data words stored into the SPI data register, in order. -/
def data_words (t : List Event) : List Nat :=
  t.filterMap (fun e => match e with
    | .spi_dr v => some v
    | _ => none)

/-- The number of data bytes an event hands to the bus: one per store into the
data register, the transfer count for a programmed DMA transfer. -/
def Event.data_length : Event → Nat
  | .spi_dr _ => 1
  | .dma_channel_set_trans_count n => n
  | _ => 0

/-- The number of data bytes a trace hands to the bus. -/
def data_length (t : List Event) : Nat :=
  (t.map Event.data_length).sum

/-- The data words that follow the head of a trace up to the next command. -/
def leading_data : List Event → List Nat
  | [] => []
  | .spi_write_blocking _ :: _ => []
  | .spi_dr v :: rest => v :: leading_data rest
  | _ :: rest => leading_data rest

/-- The DCS transactions of a trace: every command with the data words sent
after it and before the next command. -/
def frames : List Event → List (Dcs × List Nat)
  | [] => []
  | .spi_write_blocking c :: rest => (c, leading_data rest) :: frames rest
  | _ :: rest => frames rest

/-- What one event does to the reading of the trace that follows it: the data
words up to the next command, and the transactions. -/
def frame_step (e : Event) (d : List Nat × List (Dcs × List Nat)) :
    List Nat × List (Dcs × List Nat) :=
  match e with
  | .spi_write_blocking c => ([], (c, d.1) :: d.2)
  | .spi_dr v => (v :: d.1, d.2)
  | _ => d

/-- The parameters of the last `command` of a trace, if it was sent at all. -/
def last_sent (command : Dcs) (t : List Event) : Option (List Nat) :=
  ((frames t).reverse.find? (fun f => f.1 = command)).map (fun f => f.2)

/-- The four parameter bytes of a column or page range, high byte first. -/
def range_bytes (a b : Nat) : List Nat :=
  [(a >>> 8) % 256, (a &&& 0xff) % 256, (b >>> 8) % 256, (b &&& 0xff) % 256]

/-- The arguments of one `mipi_display_set_address_xyxy` call. -/
structure xyxy_call where
  x1 : Nat
  y1 : Nat
  x2 : Nat
  y2 : Nat
  deriving DecidableEq, Repr

/-- One `mipi_display_set_address_xyxy` call with the arguments `c`. -/
def set_address_call (cfg : mipi_display_config_t) (c : xyxy_call) : Out Unit :=
  mipi_display_set_address_xyxy cfg c.x1 c.y1 c.x2 c.y2

/-- The config after a sequence of `mipi_display_set_address_xyxy` calls. -/
def after_set_address_calls (cfg : mipi_display_config_t) :
    List xyxy_call → mipi_display_config_t
  | [] => cfg
  | c :: rest => after_set_address_calls (set_address_call cfg c).cfg rest

/-- The bytes a data phase puts on the bus, in order: the words stored into the
data register, and for a DMA transfer the first `count` bytes of the buffer
it is started on, `count` being the transfer count programmed before (the
buffer as it is when the transfer is started). -/
def carried_from (count : Nat) : List Event → List Nat
  | [] => []
  | .spi_dr v :: rest => v :: carried_from count rest
  | .dma_channel_set_trans_count n :: rest => carried_from n rest
  | .dma_channel_set_read_addr buffer :: rest =>
    (List.range count).map (fun i => buffer.getD i 0) ++ carried_from count rest
  | _ :: rest => carried_from count rest

/-- The bytes a data phase puts on the bus. -/
def carried (t : List Event) : List Nat := carried_from 0 t

/-- The pin reads of the tearing-effect wait of `flush` when it ends: a
deasserted read for every reading before the first asserted one, then the
asserted read; nothing when `pin_te` is not set. -/
def te_reads (cfg : mipi_display_config_t) (readings : List Bool) : List Event :=
  if cfg.pin_te > 0 then
    (readings.takeWhile (fun level => !level)).map (fun _ => Event.gpio_get cfg.pin_te false)
      ++ [Event.gpio_get cfg.pin_te true]
  else []

/-- The cached window agrees with the controller: the last column range and
the last page range sent in the trace are those of `prev_clip`. -/
def cache_reflects_controller (cfg : mipi_display_config_t) (t : List Event) : Prop :=
  last_sent .SET_COLUMN_ADDRESS t
      = some (range_bytes cfg.prev_clip.x0 cfg.prev_clip.x1)
    ∧ last_sent .SET_PAGE_ADDRESS t
      = some (range_bytes cfg.prev_clip.y0 cfg.prev_clip.y1)

instance (cfg : mipi_display_config_t) (t : List Event) :
    Decidable (cache_reflects_controller cfg t) := by
  unfold cache_reflects_controller
  infer_instance

/-- The part of `flush` that follows the wait for the tearing-effect pin: the
transfer of the back buffer. -/
def flush_transfer (b : Build) (cfg : mipi_display_config_t) : Option (Out Nat) :=
  match cfg.bb with
  | none => none
  | some bb =>
    if b.HAGL_HAL_PIXEL_SIZE = 1 then
      let w := mipi_display_write_xywh b cfg 0 0 bb.width bb.height bb.buffer
      some { cfg := w.cfg, trace := w.trace, ret := w.ret }
    else if b.HAGL_HAL_PIXEL_SIZE = 2 then
      if b.HAGL_PICO_MIPI_DISPLAY_HEIGHT < 65536
          ∧ b.HAGL_PICO_MIPI_DISPLAY_WIDTH < 65536 then
        some (flush_scanlines b bb.buffer (List.range b.HAGL_PICO_MIPI_DISPLAY_HEIGHT)
          { cfg := cfg, trace := [], ret := 0 })
      else none
    else none

/-- The events of the loop `while (!gpio_get(pin_te)) {}` on the levels the pin has
read so far, whether the loop has ended or is still spinning: one read per
level up to and including the first asserted one. -/
def wait_te_events (pin : Int) : List Bool → List Event
  | [] => []
  | level :: rest =>
    if level then [Event.gpio_get pin true]
    else Event.gpio_get pin false :: wait_te_events pin rest

/-- The pin reads of a trace: the pin and the level of every `gpio_get`. -/
def pin_reads (t : List Event) : List (Int × Bool) :=
  t.filterMap (fun e => match e with
    | .gpio_get pin level => some (pin, level)
    | _ => none)

/-- Where a trace stands before the start of a DMA transfer: nothing done, the
channel awaited, or the channel awaited and the transfer count programmed. -/
inductive DmaPhase where
  | idle
  | awaited
  | programmed
  deriving DecidableEq, Repr

/-- Every start of a DMA transfer in the trace (`dma_channel_set_read_addr`, which
triggers) comes directly after `dma_channel_wait_for_finish_blocking` and the
programming of the transfer count, nothing else in between. -/
def dma_starts_awaited_from : DmaPhase → List Event → Bool
  | _, [] => true
  | _, .dma_channel_wait_for_finish_blocking :: rest =>
    dma_starts_awaited_from .awaited rest
  | .awaited, .dma_channel_set_trans_count _ :: rest =>
    dma_starts_awaited_from .programmed rest
  | .programmed, .dma_channel_set_read_addr _ :: rest =>
    dma_starts_awaited_from .idle rest
  | _, .dma_channel_set_read_addr _ :: _ => false
  | _, _ :: rest => dma_starts_awaited_from .idle rest

/-- Every start of a DMA transfer in the trace is awaited. -/
def dma_starts_awaited (t : List Event) : Bool := dma_starts_awaited_from .idle t

/-- The buffers on which the trace starts a DMA transfer, in order. -/
def dma_starts (t : List Event) : List (List Nat) :=
  t.filterMap (fun e => match e with
    | .dma_channel_set_read_addr buffer => some buffer
    | _ => none)

/-- The arguments of one `mipi_display_write_xywh` call. -/
structure xywh_write where
  x1 : Nat
  y1 : Nat
  w : Nat
  h : Nat
  buffer : List Nat
  deriving DecidableEq, Repr

/-- Region writes made one after the other from `acc` on, their return values
added to the running total in `size_t`. -/
def write_regions (b : Build) : List xywh_write → Out Nat → Out Nat
  | [], acc => acc
  | r :: rest, acc =>
    let w := mipi_display_write_xywh b acc.cfg r.x1 r.y1 r.w r.h r.buffer
    write_regions b rest
      { cfg := w.cfg, trace := acc.trace ++ w.trace, ret := u32 (acc.ret + w.ret) }

/-- The scanline of the spec for logical row `y` of a back buffer `W` pixels wide:
`2 * W` pixels, physical column `c` holding logical pixel `(c / 2, y)`. -/
def doubled_row (b : Build) (buffer : List Nat) (W y : Nat) : List Nat :=
  (List.range (2 * W)).flatMap (fun c => color_at b buffer (y * W + c / 2))

/-- The region writes of the spec for a logical back buffer of `W x H` pixels:
the physical rows `0 .. 2 * H - 1` in increasing order, each a scanline of
width `2 * W` and height 1 at column 0, row `k` carrying logical row `k / 2`. -/
def scanline_writes (b : Build) (buffer : List Nat) (W H : Nat) : List xywh_write :=
  (List.range (2 * H)).map
    (fun k => { x1 := 0, y1 := k, w := 2 * W, h := 1, buffer := doubled_row b buffer W (k / 2) })

/-! ## Sample configurations -/

/-- A 4 x 4 panel at depth 8 without offsets, tearing-effect pin unset. -/
def sample_cfg : mipi_display_config_t :=
  { spi_freq := 62500000, spi := 0, pin_cs := 9, pin_dc := 8, pin_rst := 12, pin_bl := 13,
    pin_clk := 10, pin_mosi := 11, pin_miso := -1, pin_power := -1, pin_te := -1,
    pixel_format := 85, address_mode := 0, width := 4, height := 4,
    offset_x := 0, offset_y := 0, depth := 8, invert := 0, init_spi := 1,
    prev_clip := { x0 := 0, y0 := 0, x1 := 0, y1 := 0 }, bb := none }

/-- The double buffer build without DMA, pixel size 1. -/
def sample_build : Build :=
  { buffering := .HAGL_HAL_USE_DOUBLE_BUFFER, HAGL_HAL_USE_DMA := false,
    HAGL_HAL_PIXEL_SIZE := 1, MIPI_DISPLAY_WIDTH := 4, MIPI_DISPLAY_HEIGHT := 4,
    MIPI_DCS_SET_TEAR_ON_VSYNC := 0, sizeof_hagl_color_t := 1 }

/-- The 4 x 4 panel after `hagl_hal_init`-style setup: a 4 x 4 back buffer at
depth 8 holding the bytes 0 to 15. -/
def sample_cfg_bb : mipi_display_config_t :=
  { sample_cfg with
      bb := some { width := 4, height := 4, depth := 8,
                   buffer := [0, 1, 2, 3, 4, 5, 6, 7, 8, 9, 10, 11, 12, 13, 14, 15] } }

/-- A back buffer of 32768 x 32768 zero bytes. -/
def huge_buffer : List Nat := List.replicate (32768 * 32768) 0

/-- A config at depth 8 whose back buffer is 32768 x 32768 bytes. -/
def huge_cfg_bb : mipi_display_config_t :=
  { sample_cfg with
      bb := some { width := 32768, height := 32768, depth := 8, buffer := huge_buffer } }

/-- The double buffer build with pixel size 2 for a 16 x 16 panel, two bytes per
colour, without DMA. -/
def sample_build_doubled : Build :=
  { buffering := .HAGL_HAL_USE_DOUBLE_BUFFER, HAGL_HAL_USE_DMA := false,
    HAGL_HAL_PIXEL_SIZE := 2, MIPI_DISPLAY_WIDTH := 16, MIPI_DISPLAY_HEIGHT := 16,
    MIPI_DCS_SET_TEAR_ON_VSYNC := 0, sizeof_hagl_color_t := 2 }

/-- A config at depth 16 with a logical back buffer of 8 x 8 pixels (128 bytes). -/
def sample_cfg_8x8 : mipi_display_config_t :=
  { sample_cfg with
      width := 8, height := 8, depth := 16,
      bb := some { width := 8, height := 8, depth := 16, buffer := List.range 128 } }

/-! ## Lemmas on the transport primitives -/

theorem fill_loop_snd (color size : Nat) : (fill_loop color size).2 = SIZE_MAX := by
  induction size with
  | zero => rfl
  | succ n ih => simpa [fill_loop] using ih

theorem fill_loop_fst (color size : Nat) :
    (fill_loop color size).1 = List.replicate size (Event.spi_dr (htons color)) := by
  induction size with
  | zero => rfl
  | succ n ih => simp [fill_loop, ih, List.replicate_succ]

theorem commands_nil : commands [] = [] := rfl

theorem commands_append (s t : List Event) : commands (s ++ t) = commands s ++ commands t := by
  simp [commands, List.filterMap_append]

theorem data_words_append (s t : List Event) :
    data_words (s ++ t) = data_words s ++ data_words t := by
  simp [data_words, List.filterMap_append]

theorem data_length_append (s t : List Event) :
    data_length (s ++ t) = data_length s + data_length t := by
  simp [data_length]

theorem commands_write_command (cfg : mipi_display_config_t) (c : Dcs) :
    commands (mipi_display_write_command cfg c) = [c] := by
  simp [commands, mipi_display_write_command]

theorem data_words_write_command (cfg : mipi_display_config_t) (c : Dcs) :
    data_words (mipi_display_write_command cfg c) = [] := by
  simp [data_words, mipi_display_write_command]

theorem data_length_write_command (cfg : mipi_display_config_t) (c : Dcs) :
    data_length (mipi_display_write_command cfg c) = 0 := by
  simp [data_length, mipi_display_write_command, Event.data_length]

theorem commands_write_data_loop (data : List Nat) (length : Nat) :
    commands (write_data_loop data length) = [] := by
  simp [commands, write_data_loop, List.filterMap_map, Function.comp_def]

theorem commands_write_data (cfg : mipi_display_config_t) (data : List Nat) (length : Nat) :
    commands (mipi_display_write_data cfg data length) = [] := by
  unfold mipi_display_write_data
  split
  · rfl
  · rw [commands_append, commands_append, commands_write_data_loop]
    simp [commands]

/-! ## Lemmas on the address window -/

/-- The config `mipi_display_set_address_xyxy` leaves: only `prev_clip` changes, and
it becomes the offset-adjusted arguments whatever it held before. -/
theorem set_address_xyxy_cfg (cfg : mipi_display_config_t) (x1 y1 x2 y2 : Nat) :
    (mipi_display_set_address_xyxy cfg x1 y1 x2 y2).cfg
      = { cfg with prev_clip :=
            { x0 := u16 (x1 + cfg.offset_x), y0 := u16 (y1 + cfg.offset_y),
              x1 := u16 (x2 + cfg.offset_x), y1 := u16 (y2 + cfg.offset_y) } } := by
  obtain ⟨f, s, cs, dc, rst, bl, clk, mosi, miso, pw, te, pf, am, wd, ht, ox, oy, dp, inv,
    isp, ⟨a0, b0, a1, b1⟩, bb⟩ := cfg
  simp only [mipi_display_set_address_xyxy]
  by_cases hx : a0 ≠ u16 (x1 + ox) ∨ a1 ≠ u16 (x2 + ox) <;>
    by_cases hy : b0 ≠ u16 (y1 + oy) ∨ b1 ≠ u16 (y2 + oy) <;>
    simp [hx, hy] <;> simp only [not_or, not_not] at hx hy <;> simp_all

/-- The trace of `mipi_display_set_address_xyxy`: the column transaction if the
cached x-range differs, the page transaction if the cached y-range differs,
then the memory write start. -/
theorem set_address_xyxy_trace (cfg : mipi_display_config_t) (x1 y1 x2 y2 : Nat) :
    (mipi_display_set_address_xyxy cfg x1 y1 x2 y2).trace
      = (if cfg.prev_clip.x0 ≠ u16 (x1 + cfg.offset_x)
            ∨ cfg.prev_clip.x1 ≠ u16 (x2 + cfg.offset_x) then
          mipi_display_write_command cfg .SET_COLUMN_ADDRESS
            ++ mipi_display_write_data cfg
                (range_bytes (u16 (x1 + cfg.offset_x)) (u16 (x2 + cfg.offset_x))) 4
         else [])
        ++ (if cfg.prev_clip.y0 ≠ u16 (y1 + cfg.offset_y)
              ∨ cfg.prev_clip.y1 ≠ u16 (y2 + cfg.offset_y) then
            mipi_display_write_command cfg .SET_PAGE_ADDRESS
              ++ mipi_display_write_data cfg
                  (range_bytes (u16 (y1 + cfg.offset_y)) (u16 (y2 + cfg.offset_y))) 4
           else [])
        ++ mipi_display_write_command cfg .WRITE_MEMORY_START := by
  simp only [mipi_display_set_address_xyxy, range_bytes]
  by_cases hx : cfg.prev_clip.x0 ≠ u16 (x1 + cfg.offset_x)
      ∨ cfg.prev_clip.x1 ≠ u16 (x2 + cfg.offset_x) <;>
    by_cases hy : cfg.prev_clip.y0 ≠ u16 (y1 + cfg.offset_y)
      ∨ cfg.prev_clip.y1 ≠ u16 (y2 + cfg.offset_y) <;>
    simp [hx, hy, mipi_display_write_command, mipi_display_write_data]

theorem after_set_address_calls_append (cfg : mipi_display_config_t) (pre : List xyxy_call)
    (a : xyxy_call) :
    after_set_address_calls cfg (pre ++ [a])
      = (set_address_call (after_set_address_calls cfg pre) a).cfg := by
  induction pre generalizing cfg with
  | nil => rfl
  | cons c rest ih => simpa [after_set_address_calls] using ih _

/-- No sequence of `mipi_display_set_address_xyxy` calls changes the offsets. -/
theorem after_set_address_calls_offset (cfg : mipi_display_config_t) (cs : List xyxy_call) :
    (after_set_address_calls cfg cs).offset_x = cfg.offset_x
      ∧ (after_set_address_calls cfg cs).offset_y = cfg.offset_y := by
  induction cs generalizing cfg with
  | nil => exact ⟨rfl, rfl⟩
  | cons c rest ih =>
    have h := ih (set_address_call cfg c).cfg
    simp only [set_address_call, set_address_xyxy_cfg] at h
    simpa [after_set_address_calls, set_address_call, set_address_xyxy_cfg] using h

/-- The commands of one `mipi_display_set_address_xyxy` call. -/
theorem commands_set_address_xyxy (cfg : mipi_display_config_t) (x1 y1 x2 y2 : Nat) :
    commands (mipi_display_set_address_xyxy cfg x1 y1 x2 y2).trace
      = (if cfg.prev_clip.x0 ≠ u16 (x1 + cfg.offset_x)
            ∨ cfg.prev_clip.x1 ≠ u16 (x2 + cfg.offset_x) then [Dcs.SET_COLUMN_ADDRESS]
         else [])
        ++ (if cfg.prev_clip.y0 ≠ u16 (y1 + cfg.offset_y)
              ∨ cfg.prev_clip.y1 ≠ u16 (y2 + cfg.offset_y) then [Dcs.SET_PAGE_ADDRESS]
           else [])
        ++ [Dcs.WRITE_MEMORY_START] := by
  rw [set_address_xyxy_trace, commands_append, commands_append, commands_write_command]
  congr 2
  · split
    · rw [commands_append, commands_write_command, commands_write_data]; rfl
    · rfl
  · split
    · rw [commands_append, commands_write_command, commands_write_data]; rfl
    · rfl

theorem u16_add_u16 (a c : Nat) : u16 (u16 a + c) = u16 (a + c) := by
  simp [u16, Nat.mod_add_mod]

/-- Passing the end coordinates through `uint16_t` parameters does not change what
`mipi_display_set_address_xyxy` does: the sums with the offsets are reduced anyway. -/
theorem set_address_xyxy_u16 (cfg : mipi_display_config_t) (x1 y1 x2 y2 : Nat) :
    (mipi_display_set_address_xyxy cfg x1 y1 (u16 x2) (u16 y2)).trace
        = (mipi_display_set_address_xyxy cfg x1 y1 x2 y2).trace
      ∧ (mipi_display_set_address_xyxy cfg x1 y1 (u16 x2) (u16 y2)).cfg
        = (mipi_display_set_address_xyxy cfg x1 y1 x2 y2).cfg := by
  constructor
  · simp only [set_address_xyxy_trace, u16_add_u16]
  · simp only [set_address_xyxy_cfg, u16_add_u16]

theorem data_length_write_data_loop (data : List Nat) (length : Nat) :
    data_length (write_data_loop data length) = length := by
  simp [data_length, write_data_loop, Function.comp_def, Event.data_length]

theorem data_length_write_data (cfg : mipi_display_config_t) (data : List Nat)
    (length : Nat) : data_length (mipi_display_write_data cfg data length) = length := by
  unfold mipi_display_write_data
  split
  · simp_all [data_length]
  · rw [data_length_append, data_length_append, data_length_write_data_loop]
    simp [data_length, Event.data_length]

theorem data_length_write_data_dma (cfg : mipi_display_config_t) (buffer : List Nat)
    (length : Nat) : data_length (mipi_display_write_data_dma cfg buffer length) = length := by
  unfold mipi_display_write_data_dma
  split
  · simp_all [data_length]
  · simp [data_length, Event.data_length]

/-- The data phase of a region write hands `length` bytes to the bus, in every
build. -/
theorem data_length_write_xywh_data (b : Build) (cfg : mipi_display_config_t)
    (buffer : List Nat) (length : Nat) :
    data_length (write_xywh_data b cfg buffer length) = length := by
  unfold write_xywh_data
  split
  · exact data_length_write_data cfg buffer length
  · split
    · exact data_length_write_data_dma cfg buffer length
    · exact data_length_write_data cfg buffer length

theorem commands_write_xywh_data (b : Build) (cfg : mipi_display_config_t)
    (buffer : List Nat) (length : Nat) :
    commands (write_xywh_data b cfg buffer length) = [] := by
  unfold write_xywh_data
  have hdma : commands (mipi_display_write_data_dma cfg buffer length) = [] := by
    unfold mipi_display_write_data_dma
    split <;> simp [commands]
  split
  · exact commands_write_data cfg buffer length
  · split
    · exact hdma
    · exact commands_write_data cfg buffer length

/-- The length `size * depth / 8` that `mipi_display_write_xywh` hands to its data
phase, for depth 8 or 16 and `w * h * depth` below `2^32`. -/
theorem write_xywh_length (w h depth : Nat) (hd : depth = 8 ∨ depth = 16)
    (hlt : w * h * depth < 4294967296) :
    u32 (u32 (w * h) * depth) / 8 = w * h * (depth / 8) := by
  have hwh : w * h < 4294967296 := by
    rcases hd with hd | hd <;> subst hd <;> omega
  have h1 : u32 (w * h) = w * h := Nat.mod_eq_of_lt hwh
  have h2 : u32 (w * h * depth) = w * h * depth := Nat.mod_eq_of_lt hlt
  rw [h1, h2]
  rcases hd with hd | hd <;> subst hd <;> omega

/-! ## Lemmas on the transactions of a trace -/

theorem decode_eq_foldr (t : List Event) :
    (leading_data t, frames t) = t.foldr frame_step ([], []) := by
  induction t with
  | nil => rfl
  | cons e rest ih =>
    rw [List.foldr_cons, ← ih]
    cases e <;> rfl

theorem decode_append (s t : List Event) :
    (leading_data (s ++ t), frames (s ++ t))
      = s.foldr frame_step (leading_data t, frames t) := by
  rw [decode_eq_foldr, List.foldr_append, ← decode_eq_foldr]

theorem frames_append (s t : List Event) :
    frames (s ++ t) = (s.foldr frame_step (leading_data t, frames t)).2 := by
  rw [← decode_append]

theorem leading_data_append (s t : List Event) :
    leading_data (s ++ t) = (s.foldr frame_step (leading_data t, frames t)).1 := by
  rw [← decode_append]

theorem foldr_frame_step_ite (c : Prop) [Decidable c] (s t : List Event)
    (d : List Nat × List (Dcs × List Nat)) :
    (if c then s else t).foldr frame_step d
      = if c then s.foldr frame_step d else t.foldr frame_step d := by
  split <;> rfl

theorem foldr_frame_step_write_command (cfg : mipi_display_config_t) (c : Dcs)
    (d : List Nat × List (Dcs × List Nat)) :
    (mipi_display_write_command cfg c).foldr frame_step d = ([], (c, d.1) :: d.2) := by
  simp [mipi_display_write_command, frame_step]

theorem foldr_frame_step_write_data_loop (data : List Nat) (length : Nat)
    (d : List Nat × List (Dcs × List Nat)) :
    (write_data_loop data length).foldr frame_step d
      = ((List.range length).map (fun i => data.getD i 0) ++ d.1, d.2) := by
  unfold write_data_loop
  induction (List.range length) with
  | nil => rfl
  | cons i rest ih =>
    simp only [List.map_cons, List.foldr_cons, ih, frame_step, List.cons_append]

theorem foldr_frame_step_write_data (cfg : mipi_display_config_t) (data : List Nat)
    (length : Nat) (d : List Nat × List (Dcs × List Nat)) :
    (mipi_display_write_data cfg data length).foldr frame_step d
      = ((List.range length).map (fun i => data.getD i 0) ++ d.1, d.2) := by
  unfold mipi_display_write_data
  split
  · simp_all
  · simp [List.foldr_append, foldr_frame_step_write_data_loop, frame_step]

theorem foldr_frame_step_spi_master_init (cfg : mipi_display_config_t)
    (d : List Nat × List (Dcs × List Nat)) :
    (mipi_display_spi_master_init cfg).foldr frame_step d = d := by
  unfold mipi_display_spi_master_init
  split
  · split <;> simp [frame_step]
  · rfl

theorem foldr_frame_step_dma_init (cfg : mipi_display_config_t)
    (d : List Nat × List (Dcs × List Nat)) :
    (mipi_display_dma_init cfg).foldr frame_step d = d := by
  simp [mipi_display_dma_init, frame_step]

/-- The transactions of one `mipi_display_set_address_xyxy` call, read with whatever
follows it: the column range if the cached x-range differs, the page range
if the cached y-range differs, then the memory write start, which takes
the data that follows. -/
theorem foldr_frame_step_set_address_xyxy (cfg : mipi_display_config_t)
    (x1 y1 x2 y2 : Nat) (d : List Nat × List (Dcs × List Nat)) :
    (mipi_display_set_address_xyxy cfg x1 y1 x2 y2).trace.foldr frame_step d
      = ([],
         (if cfg.prev_clip.x0 ≠ u16 (x1 + cfg.offset_x)
              ∨ cfg.prev_clip.x1 ≠ u16 (x2 + cfg.offset_x) then
            [(Dcs.SET_COLUMN_ADDRESS,
              range_bytes (u16 (x1 + cfg.offset_x)) (u16 (x2 + cfg.offset_x)))]
          else [])
          ++ (if cfg.prev_clip.y0 ≠ u16 (y1 + cfg.offset_y)
                ∨ cfg.prev_clip.y1 ≠ u16 (y2 + cfg.offset_y) then
              [(Dcs.SET_PAGE_ADDRESS,
                range_bytes (u16 (y1 + cfg.offset_y)) (u16 (y2 + cfg.offset_y)))]
            else [])
          ++ (Dcs.WRITE_MEMORY_START, d.1) :: d.2) := by
  rw [set_address_xyxy_trace]
  simp only [List.foldr_append, foldr_frame_step_write_command, foldr_frame_step_ite,
    foldr_frame_step_write_data, List.foldr_nil]
  split <;> split <;> simp [range_bytes, List.range_succ]

/-- The transactions of one `mipi_display_set_address_xyxy` call. -/
theorem frames_set_address_xyxy (cfg : mipi_display_config_t) (x1 y1 x2 y2 : Nat) :
    frames (mipi_display_set_address_xyxy cfg x1 y1 x2 y2).trace
      = (if cfg.prev_clip.x0 ≠ u16 (x1 + cfg.offset_x)
              ∨ cfg.prev_clip.x1 ≠ u16 (x2 + cfg.offset_x) then
            [(Dcs.SET_COLUMN_ADDRESS,
              range_bytes (u16 (x1 + cfg.offset_x)) (u16 (x2 + cfg.offset_x)))]
          else [])
          ++ (if cfg.prev_clip.y0 ≠ u16 (y1 + cfg.offset_y)
                ∨ cfg.prev_clip.y1 ≠ u16 (y2 + cfg.offset_y) then
              [(Dcs.SET_PAGE_ADDRESS,
                range_bytes (u16 (y1 + cfg.offset_y)) (u16 (y2 + cfg.offset_y)))]
            else [])
          ++ [(Dcs.WRITE_MEMORY_START, [])] := by
  have h := congrArg Prod.snd (decode_eq_foldr (mipi_display_set_address_xyxy cfg x1 y1 x2 y2).trace)
  rw [foldr_frame_step_set_address_xyxy] at h
  exact h

/-! ## Lemmas on the flush -/

/-- The tearing-effect wait ends exactly when some reading is asserted, after
the reads that `te_reads` lists. -/
theorem wait_te_eq (pin : Int) (readings : List Bool) :
    wait_te pin readings
      = if true ∈ readings then
          some ((readings.takeWhile (fun level => !level)).map
              (fun _ => Event.gpio_get pin false) ++ [Event.gpio_get pin true])
        else none := by
  induction readings with
  | nil => rfl
  | cons level rest ih =>
    cases level
    · by_cases h : true ∈ rest
      · simp [wait_te, ih, h, List.takeWhile]
      · simp [wait_te, ih, h, List.takeWhile]
    · simp [wait_te, List.takeWhile]

theorem range_map_getD (l : List Nat) :
    (List.range l.length).map (fun i => l.getD i 0) = l := by
  apply List.ext_getElem
  · simp
  · intro i h1 h2
    simp [List.getElem?_eq_getElem h2]

theorem carried_write_data_loop (data : List Nat) (length count : Nat) (rest : List Event) :
    carried_from count (write_data_loop data length ++ rest)
      = (List.range length).map (fun i => data.getD i 0) ++ carried_from count rest := by
  unfold write_data_loop
  induction (List.range length) with
  | nil => rfl
  | cons i more ih =>
    simp only [List.map_cons, List.cons_append]
    rw [carried_from, ih]

/-- The data phase of a region write carries the first `length` bytes of the
buffer, in every build. -/
theorem carried_write_xywh_data (b : Build) (cfg : mipi_display_config_t)
    (buffer : List Nat) (length : Nat) :
    carried (write_xywh_data b cfg buffer length)
      = (List.range length).map (fun i => buffer.getD i 0) := by
  have hsync : carried (mipi_display_write_data cfg buffer length)
      = (List.range length).map (fun i => buffer.getD i 0) := by
    unfold mipi_display_write_data carried
    split
    · simp_all [carried_from]
    · rw [List.append_assoc]
      change carried_from 0 (write_data_loop buffer length ++ _) = _
      rw [carried_write_data_loop]
      simp [carried_from]
  have hdma : carried (mipi_display_write_data_dma cfg buffer length)
      = (List.range length).map (fun i => buffer.getD i 0) := by
    unfold mipi_display_write_data_dma carried
    split
    · simp_all [carried_from]
    · simp only [carried_from, List.append_nil]
  unfold write_xywh_data
  split
  · exact hsync
  · split
    · exact hdma
    · exact hsync

/-- The value `mipi_display_write_xywh` returns for a non-empty region is the
product `w * h * (depth / 8)` reduced modulo `2^32`. -/
theorem write_xywh_ret_mod (b : Build) (cfg : mipi_display_config_t) (x1 y1 w h : Nat)
    (buffer : List Nat) (hw : 0 < w) (hh : 0 < h) :
    (mipi_display_write_xywh b cfg x1 y1 w h buffer).ret
      = (w * h * (cfg.depth / 8)) % 4294967296 := by
  have h0 : ¬ (w = 0 ∨ h = 0) := by omega
  simp [mipi_display_write_xywh, h0, u32, Nat.mod_mul_mod]

/-! ## Return values of the region operations -/

/-- C1 (the code departs from the claim): for every config, coordinates and
colour and every non-zero `w` and `h`, `mipi_display_fill_xywh` returns
`SIZE_MAX`, the value its counter `size` is left with by `while (size--)`,
and for 16-bit `w` and `h` that is never `w * h`. -/
theorem fill_xywh_returns_size_max (cfg : mipi_display_config_t) (x1 y1 w h color : Nat)
    (hw : 0 < w) (hh : 0 < h) (hw16 : w < 65536) (hh16 : h < 65536) :
    (mipi_display_fill_xywh cfg x1 y1 w h color).ret = 4294967295
      ∧ (mipi_display_fill_xywh cfg x1 y1 w h color).ret ≠ w * h := by
  have hret : (mipi_display_fill_xywh cfg x1 y1 w h color).ret = 4294967295 := by
    have h0 : ¬ (w = 0 ∨ h = 0) := by omega
    simp [mipi_display_fill_xywh, h0, fill_loop_snd, SIZE_MAX]
  refine ⟨hret, ?_⟩
  rw [hret]
  have hle : w * h ≤ 65535 * 65535 := Nat.mul_le_mul (by omega) (by omega)
  omega

/-- The statement of `fill_xywh_returns_size_max` at a 1 x 1 fill. -/
theorem fill_xywh_returns_size_max_witness :
    (0 < 1 ∧ 1 < 65536)
      ∧ (mipi_display_fill_xywh sample_cfg 0 0 1 1 0).ret = 4294967295
      ∧ (mipi_display_fill_xywh sample_cfg 0 0 1 1 0).ret ≠ 1 * 1 :=
  ⟨by decide, fill_xywh_returns_size_max sample_cfg 0 0 1 1 0 (by decide) (by decide)
    (by decide) (by decide)⟩

/-- C2 (as stated, refuted): for `w = h = 32768` and depth 32 the product
`w * h * (depth / 8)` is `2^32` and `mipi_display_write_xywh` returns `0`; for
`w = h = 65535` and depth 16 the product is `8589672450` and the value
returned is `4294705154`. -/
theorem write_xywh_ret_overflow :
    (mipi_display_write_xywh sample_build { sample_cfg with depth := 32 } 0 0 32768 32768 []).ret
      = 0
    ∧ 32768 * 32768 * (32 / 8) = 4294967296
    ∧ (mipi_display_write_xywh sample_build { sample_cfg with depth := 16 }
        0 0 65535 65535 []).ret = 4294705154
    ∧ 65535 * 65535 * (16 / 8) = 8589672450 := by
  refine ⟨?_, by norm_num, ?_, by norm_num⟩
  · simp [mipi_display_write_xywh, u32]
  · simp [mipi_display_write_xywh, u32]

/-- C2 (amended): for every build, config, coordinates and buffer and every
`w > 0`, `h > 0` with `w * h * (depth / 8) < 2^32`, `mipi_display_write_xywh`
returns exactly `w * h * (depth / 8)`, `depth / 8` being integer division. -/
theorem write_xywh_ret (b : Build) (cfg : mipi_display_config_t) (x1 y1 w h : Nat)
    (buffer : List Nat) (hw : 0 < w) (hh : 0 < h)
    (hlt : w * h * (cfg.depth / 8) < 4294967296) :
    (mipi_display_write_xywh b cfg x1 y1 w h buffer).ret = w * h * (cfg.depth / 8) := by
  rw [write_xywh_ret_mod b cfg x1 y1 w h buffer hw hh, Nat.mod_eq_of_lt hlt]

/-- The statement of `write_xywh_ret` at a 4 x 4 write at depth 8. -/
theorem write_xywh_ret_witness :
    (0 < 4 ∧ 4 * 4 * (sample_cfg.depth / 8) < 4294967296)
      ∧ (mipi_display_write_xywh sample_build sample_cfg 0 0 4 4 []).ret
          = 4 * 4 * (sample_cfg.depth / 8) :=
  ⟨by decide, write_xywh_ret sample_build sample_cfg 0 0 4 4 [] (by decide) (by decide)
    (by decide)⟩

/-- C3: for every build, config, coordinates, buffer and colour, when `w = 0`
or `h = 0` both `mipi_display_write_xywh` and `mipi_display_fill_xywh` return `0`,
perform no hardware call at all (the trace is empty) and leave the config,
`prev_clip` included, as it was. -/
theorem empty_region_is_noop (b : Build) (cfg : mipi_display_config_t) (x1 y1 w h : Nat)
    (buffer : List Nat) (color : Nat) (hz : w = 0 ∨ h = 0) :
    (mipi_display_write_xywh b cfg x1 y1 w h buffer).ret = 0
      ∧ (mipi_display_write_xywh b cfg x1 y1 w h buffer).trace = []
      ∧ (mipi_display_write_xywh b cfg x1 y1 w h buffer).cfg = cfg
      ∧ (mipi_display_fill_xywh cfg x1 y1 w h color).ret = 0
      ∧ (mipi_display_fill_xywh cfg x1 y1 w h color).trace = []
      ∧ (mipi_display_fill_xywh cfg x1 y1 w h color).cfg = cfg := by
  simp [mipi_display_write_xywh, mipi_display_fill_xywh, hz]

/-- The statement of `empty_region_is_noop` at `w = 0`, `h = 3`. -/
theorem empty_region_is_noop_witness :
    ((0 : Nat) = 0 ∨ (3 : Nat) = 0)
      ∧ (mipi_display_write_xywh sample_build sample_cfg 1 2 0 3 [7]).ret = 0
      ∧ (mipi_display_write_xywh sample_build sample_cfg 1 2 0 3 [7]).trace = []
      ∧ (mipi_display_write_xywh sample_build sample_cfg 1 2 0 3 [7]).cfg = sample_cfg
      ∧ (mipi_display_fill_xywh sample_cfg 1 2 0 3 5).ret = 0
      ∧ (mipi_display_fill_xywh sample_cfg 1 2 0 3 5).trace = []
      ∧ (mipi_display_fill_xywh sample_cfg 1 2 0 3 5).cfg = sample_cfg :=
  ⟨Or.inl rfl, empty_region_is_noop sample_build sample_cfg 1 2 0 3 [7] 5 (Or.inl rfl)⟩

/-! ## The address window cache -/

/-- C4: for every initial config and every sequence of
`mipi_display_set_address_xyxy` calls `pre ++ [a, b]`, if the call `b` has the `x1`
and `x2` of the call `a` made just before it, then `b` issues no
set-column-address command, whatever the y-ranges are; `offset_x` is the
same at every call, no call changes it. -/
theorem column_address_not_reissued (cfg : mipi_display_config_t) (pre : List xyxy_call)
    (a b : xyxy_call) (hx1 : b.x1 = a.x1) (hx2 : b.x2 = a.x2) :
    Dcs.SET_COLUMN_ADDRESS ∉
        commands (set_address_call (after_set_address_calls cfg (pre ++ [a])) b).trace
      ∧ (after_set_address_calls cfg (pre ++ [a])).offset_x = cfg.offset_x := by
  refine ⟨?_, (after_set_address_calls_offset cfg _).1⟩
  rw [after_set_address_calls_append]
  simp only [set_address_call]
  rw [commands_set_address_xyxy, set_address_xyxy_cfg]
  simp only [hx1, hx2, ne_eq, not_true_eq_false, or_self, if_false, List.nil_append]
  split <;> simp

/-- The statement of `column_address_not_reissued` at three calls, the last two with
the x-range `1..2` and different y-ranges. -/
theorem column_address_not_reissued_witness :
    ((⟨1, 5, 2, 6⟩ : xyxy_call).x1 = (⟨1, 0, 2, 3⟩ : xyxy_call).x1
        ∧ (⟨1, 5, 2, 6⟩ : xyxy_call).x2 = (⟨1, 0, 2, 3⟩ : xyxy_call).x2)
      ∧ Dcs.SET_COLUMN_ADDRESS ∉
          commands (set_address_call
            (after_set_address_calls sample_cfg ([⟨0, 0, 3, 3⟩] ++ [⟨1, 0, 2, 3⟩]))
            ⟨1, 5, 2, 6⟩).trace
      ∧ (after_set_address_calls sample_cfg ([⟨0, 0, 3, 3⟩] ++ [⟨1, 0, 2, 3⟩])).offset_x
          = sample_cfg.offset_x :=
  ⟨⟨rfl, rfl⟩,
    column_address_not_reissued sample_cfg [⟨0, 0, 3, 3⟩] ⟨1, 0, 2, 3⟩ ⟨1, 5, 2, 6⟩ rfl rfl⟩

/-- C5: for every initial config and every sequence of
`mipi_display_set_address_xyxy` calls `pre ++ [a, b]`, if the call `b` has the `y1`
and `y2` of the call `a` made just before it, then `b` issues no
set-page-address command, whatever the x-ranges are; `offset_y` is the
same at every call, no call changes it. -/
theorem page_address_not_reissued (cfg : mipi_display_config_t) (pre : List xyxy_call)
    (a b : xyxy_call) (hy1 : b.y1 = a.y1) (hy2 : b.y2 = a.y2) :
    Dcs.SET_PAGE_ADDRESS ∉
        commands (set_address_call (after_set_address_calls cfg (pre ++ [a])) b).trace
      ∧ (after_set_address_calls cfg (pre ++ [a])).offset_y = cfg.offset_y := by
  refine ⟨?_, (after_set_address_calls_offset cfg _).2⟩
  rw [after_set_address_calls_append]
  simp only [set_address_call]
  rw [commands_set_address_xyxy, set_address_xyxy_cfg]
  simp only [hy1, hy2, ne_eq, not_true_eq_false, or_self, if_false, List.append_nil]
  split <;> simp

/-- The statement of `page_address_not_reissued` at three calls, the last two with
the y-range `1..2` and different x-ranges. -/
theorem page_address_not_reissued_witness :
    ((⟨0, 1, 3, 2⟩ : xyxy_call).y1 = (⟨1, 1, 2, 2⟩ : xyxy_call).y1
        ∧ (⟨0, 1, 3, 2⟩ : xyxy_call).y2 = (⟨1, 1, 2, 2⟩ : xyxy_call).y2)
      ∧ Dcs.SET_PAGE_ADDRESS ∉
          commands (set_address_call
            (after_set_address_calls sample_cfg ([⟨0, 0, 3, 3⟩] ++ [⟨1, 1, 2, 2⟩]))
            ⟨0, 1, 3, 2⟩).trace
      ∧ (after_set_address_calls sample_cfg ([⟨0, 0, 3, 3⟩] ++ [⟨1, 1, 2, 2⟩])).offset_y
          = sample_cfg.offset_y :=
  ⟨⟨rfl, rfl⟩,
    page_address_not_reissued sample_cfg [⟨0, 0, 3, 3⟩] ⟨1, 1, 2, 2⟩ ⟨0, 1, 3, 2⟩ rfl rfl⟩

/-- C6: for every config and window, a second `mipi_display_set_address_xyxy` call
with the window of the call before it performs exactly the write-memory-start
command (so no set-column-address, no set-page-address, no data) and leaves
the config, cached window included, as the first call left it; and every
call (the first one, from an arbitrary config) issues write-memory-start
exactly once, as its last command, at the end of its trace. -/
theorem set_address_twice (cfg : mipi_display_config_t) (x0 y0 x1 y1 : Nat) :
    (mipi_display_set_address_xyxy (mipi_display_set_address_xyxy cfg x0 y0 x1 y1).cfg
        x0 y0 x1 y1).trace
        = mipi_display_write_command (mipi_display_set_address_xyxy cfg x0 y0 x1 y1).cfg
            .WRITE_MEMORY_START
      ∧ commands (mipi_display_set_address_xyxy
          (mipi_display_set_address_xyxy cfg x0 y0 x1 y1).cfg x0 y0 x1 y1).trace
          = [Dcs.WRITE_MEMORY_START]
      ∧ data_words (mipi_display_set_address_xyxy
          (mipi_display_set_address_xyxy cfg x0 y0 x1 y1).cfg x0 y0 x1 y1).trace = []
      ∧ data_length (mipi_display_set_address_xyxy
          (mipi_display_set_address_xyxy cfg x0 y0 x1 y1).cfg x0 y0 x1 y1).trace = 0
      ∧ (mipi_display_set_address_xyxy (mipi_display_set_address_xyxy cfg x0 y0 x1 y1).cfg
          x0 y0 x1 y1).cfg = (mipi_display_set_address_xyxy cfg x0 y0 x1 y1).cfg
      ∧ (commands (mipi_display_set_address_xyxy cfg x0 y0 x1 y1).trace).count
          Dcs.WRITE_MEMORY_START = 1
      ∧ (commands (mipi_display_set_address_xyxy cfg x0 y0 x1 y1).trace).getLast?
          = some Dcs.WRITE_MEMORY_START
      ∧ (∃ before, (mipi_display_set_address_xyxy cfg x0 y0 x1 y1).trace
          = before ++ mipi_display_write_command cfg .WRITE_MEMORY_START
            ∧ Dcs.WRITE_MEMORY_START ∉ commands before) := by
  have hsecond : (mipi_display_set_address_xyxy
      (mipi_display_set_address_xyxy cfg x0 y0 x1 y1).cfg x0 y0 x1 y1).trace
      = mipi_display_write_command (mipi_display_set_address_xyxy cfg x0 y0 x1 y1).cfg
          .WRITE_MEMORY_START := by
    rw [set_address_xyxy_trace, set_address_xyxy_cfg]
    simp
  refine ⟨hsecond, ?_, ?_, ?_, ?_, ?_, ?_, ?_⟩
  · rw [hsecond, commands_write_command]
  · rw [hsecond, data_words_write_command]
  · rw [hsecond, data_length_write_command]
  · rw [set_address_xyxy_cfg, set_address_xyxy_cfg]
  · rw [commands_set_address_xyxy]
    split <;> split <;> simp
  · rw [commands_set_address_xyxy]
    simp
  · refine ⟨_, set_address_xyxy_trace cfg x0 y0 x1 y1, ?_⟩
    rw [commands_append]
    split <;> split <;>
      simp [commands_append, commands_write_command, commands_write_data, commands_nil]

/-- C7 (the code departs from the claim), on a 4 x 4 panel without offsets.
`hagl_hal_init` sends the column and page ranges `0..3` and then zeroes
`prev_clip`, so the cache does not hold what the controller was sent, and a
following write of the one-pixel-wide column `(0,0)-(0,3)` sends no
set-column-address. After a full-screen write has brought cache and
controller together, `mipi_display_write_xy` at `(2, 2)` sends new column and
page start addresses and leaves `prev_clip` as it was, so the next
full-screen write sends neither range again. -/
theorem prev_clip_not_what_was_sent :
    last_sent .SET_COLUMN_ADDRESS (hagl_hal_init sample_build sample_cfg none).trace
        = some [0, 0, 0, 3]
      ∧ last_sent .SET_PAGE_ADDRESS (hagl_hal_init sample_build sample_cfg none).trace
        = some [0, 0, 0, 3]
      ∧ (hagl_hal_init sample_build sample_cfg none).cfg.prev_clip
        = { x0 := 0, y0 := 0, x1 := 0, y1 := 0 }
      ∧ ¬ cache_reflects_controller (hagl_hal_init sample_build sample_cfg none).cfg
          (hagl_hal_init sample_build sample_cfg none).trace
      ∧ commands (mipi_display_write_xywh sample_build
          (hagl_hal_init sample_build sample_cfg none).cfg 0 0 1 4 [1, 2, 3, 4]).trace
        = [Dcs.SET_PAGE_ADDRESS, Dcs.WRITE_MEMORY_START]
      ∧ cache_reflects_controller
          (mipi_display_set_address_xyxy sample_cfg 0 0 3 3).cfg
          (mipi_display_set_address_xyxy sample_cfg 0 0 3 3).trace
      ∧ ¬ cache_reflects_controller
          (mipi_display_write_xy (mipi_display_set_address_xyxy sample_cfg 0 0 3 3).cfg
            2 2 [9]).cfg
          ((mipi_display_set_address_xyxy sample_cfg 0 0 3 3).trace
            ++ (mipi_display_write_xy (mipi_display_set_address_xyxy sample_cfg 0 0 3 3).cfg
              2 2 [9]).trace)
      ∧ commands (mipi_display_set_address_xyxy
          (mipi_display_write_xy (mipi_display_set_address_xyxy sample_cfg 0 0 3 3).cfg
            2 2 [9]).cfg 0 0 3 3).trace
        = [Dcs.WRITE_MEMORY_START] := by
  refine ⟨?_, ?_, ?_, ?_, ?_, ?_, ?_, ?_⟩ <;> decide

/-! ## Region writes -/

/-- C8 (as stated, refuted): at depth 16 and `w = h = 16384` the length
`size * depth / 8` wraps to zero, so `mipi_display_write_xywh` programs the window
and transmits no data at all, while it returns `w * h * 2 = 536870912`. -/
theorem write_xywh_data_overflow :
    (mipi_display_write_xywh sample_build { sample_cfg with depth := 16 }
        0 0 16384 16384 []).trace
        = (mipi_display_set_address_xyxy { sample_cfg with depth := 16 } 0 0 16383 16383).trace
      ∧ (mipi_display_write_xywh sample_build { sample_cfg with depth := 16 }
        0 0 16384 16384 []).ret = 536870912
      ∧ 16384 * 16384 * (16 / 8) = 536870912 := by
  refine ⟨?_, ?_, by norm_num⟩
  · simp [mipi_display_write_xywh, u32, write_xywh_data, sample_build,
      mipi_display_write_data, sample_cfg, (set_address_xyxy_u16 _ _ _ _ _).1, u16]
  · simp [mipi_display_write_xywh, u32, sample_cfg]

/-- C8 (amended): for every build and every config with depth 8 or 16, every
`x`, `y`, `w > 0`, `h > 0` with `w * h * depth < 2^32`: `mipi_display_write_xywh`
first does what `mipi_display_set_address_xyxy` does for the inclusive rectangle
`(x, y)-(x + w - 1, y + h - 1)` (the cached window becomes that rectangle,
offset-adjusted), then runs the data phase of the build (synchronous or DMA)
on the buffer with length `w * h * (depth / 8)`; the data phase hands exactly
that many bytes to the bus and issues no command, and that number is the
value returned. -/
theorem write_xywh_window_then_data (b : Build) (cfg : mipi_display_config_t)
    (x y w h : Nat) (buffer : List Nat) (hd : cfg.depth = 8 ∨ cfg.depth = 16)
    (hw : 0 < w) (hh : 0 < h) (hlt : w * h * cfg.depth < 4294967296) :
    (mipi_display_write_xywh b cfg x y w h buffer).trace
        = (mipi_display_set_address_xyxy cfg x y (x + w - 1) (y + h - 1)).trace
          ++ write_xywh_data b (mipi_display_set_address_xyxy cfg x y (x + w - 1) (y + h - 1)).cfg
              buffer (w * h * (cfg.depth / 8))
      ∧ (mipi_display_write_xywh b cfg x y w h buffer).cfg.prev_clip
        = { x0 := u16 (x + cfg.offset_x), y0 := u16 (y + cfg.offset_y),
            x1 := u16 (x + w - 1 + cfg.offset_x), y1 := u16 (y + h - 1 + cfg.offset_y) }
      ∧ data_length (write_xywh_data b
          (mipi_display_set_address_xyxy cfg x y (x + w - 1) (y + h - 1)).cfg
          buffer (w * h * (cfg.depth / 8))) = w * h * (cfg.depth / 8)
      ∧ commands (write_xywh_data b
          (mipi_display_set_address_xyxy cfg x y (x + w - 1) (y + h - 1)).cfg
          buffer (w * h * (cfg.depth / 8))) = []
      ∧ (mipi_display_write_xywh b cfg x y w h buffer).ret = w * h * (cfg.depth / 8) := by
  have h0 : ¬ (w = 0 ∨ h = 0) := by omega
  have hlen := write_xywh_length w h cfg.depth hd hlt
  have hret : w * h * (cfg.depth / 8) < 4294967296 := by
    rcases hd with hd | hd <;> rw [hd] at hlt ⊢ <;> omega
  refine ⟨?_, ?_, data_length_write_xywh_data _ _ _ _, commands_write_xywh_data _ _ _ _, ?_⟩
  rotate_left 2
  · rw [write_xywh_ret_mod b cfg x y w h buffer hw hh, Nat.mod_eq_of_lt hret]
  · simp only [mipi_display_write_xywh, h0, if_false, hlen,
      (set_address_xyxy_u16 cfg x y _ _).1, (set_address_xyxy_u16 cfg x y _ _).2]
  · simp only [mipi_display_write_xywh, h0, if_false,
      (set_address_xyxy_u16 cfg x y _ _).2, set_address_xyxy_cfg]

/-- The statement of `write_xywh_window_then_data` at a 2 x 3 write at `(1, 0)`. -/
theorem write_xywh_window_then_data_witness :
    (((sample_cfg.depth = 8 ∨ sample_cfg.depth = 16) ∧ 0 < 2 ∧ 0 < 3)
        ∧ 2 * 3 * sample_cfg.depth < 4294967296)
      ∧ (mipi_display_write_xywh sample_build sample_cfg 1 0 2 3 [1, 2, 3, 4, 5, 6]).trace
        = (mipi_display_set_address_xyxy sample_cfg 1 0 (1 + 2 - 1) (0 + 3 - 1)).trace
          ++ write_xywh_data sample_build
              (mipi_display_set_address_xyxy sample_cfg 1 0 (1 + 2 - 1) (0 + 3 - 1)).cfg
              [1, 2, 3, 4, 5, 6] (2 * 3 * (sample_cfg.depth / 8))
      ∧ (mipi_display_write_xywh sample_build sample_cfg 1 0 2 3 [1, 2, 3, 4, 5, 6]).cfg.prev_clip
        = { x0 := u16 (1 + sample_cfg.offset_x), y0 := u16 (0 + sample_cfg.offset_y),
            x1 := u16 (1 + 2 - 1 + sample_cfg.offset_x),
            y1 := u16 (0 + 3 - 1 + sample_cfg.offset_y) }
      ∧ data_length (write_xywh_data sample_build
          (mipi_display_set_address_xyxy sample_cfg 1 0 (1 + 2 - 1) (0 + 3 - 1)).cfg
          [1, 2, 3, 4, 5, 6] (2 * 3 * (sample_cfg.depth / 8))) = 2 * 3 * (sample_cfg.depth / 8)
      ∧ commands (write_xywh_data sample_build
          (mipi_display_set_address_xyxy sample_cfg 1 0 (1 + 2 - 1) (0 + 3 - 1)).cfg
          [1, 2, 3, 4, 5, 6] (2 * 3 * (sample_cfg.depth / 8))) = []
      ∧ (mipi_display_write_xywh sample_build sample_cfg 1 0 2 3 [1, 2, 3, 4, 5, 6]).ret
        = 2 * 3 * (sample_cfg.depth / 8) :=
  ⟨by decide, write_xywh_window_then_data sample_build sample_cfg 1 0 2 3 [1, 2, 3, 4, 5, 6]
    (by decide) (by decide) (by decide) (by decide)⟩

/-! ## Initialisation sequence -/

/-- C9: for every build and config, the DCS transactions of `mipi_display_init`
(each command with the data bytes sent after it) are, in this order:
soft-reset; set-address-mode with the one byte `address_mode`;
set-pixel-format with the one byte `pixel_format`; set-tear-on with the
vsync parameter exactly when `pin_te > 0`; enter-invert-mode when
`invert > 0` and exit-invert-mode otherwise; exit-sleep-mode; set-display-on;
and then the transactions of `mipi_display_set_address_xyxy` for the full screen
`(0, 0)-(width - 1, height - 1)` (the differences as `uint16_t`), the last of
which is write-memory-start. -/
theorem init_command_order (b : Build) (cfg : mipi_display_config_t) :
    frames (mipi_display_init b cfg).trace
        = [(Dcs.SOFT_RESET, []), (Dcs.SET_ADDRESS_MODE, [cfg.address_mode]),
            (Dcs.SET_PIXEL_FORMAT, [cfg.pixel_format])]
          ++ (if cfg.pin_te > 0 then [(Dcs.SET_TEAR_ON, [b.MIPI_DCS_SET_TEAR_ON_VSYNC])]
              else [])
          ++ [(if cfg.invert > 0 then Dcs.ENTER_INVERT_MODE else Dcs.EXIT_INVERT_MODE, [])]
          ++ [(Dcs.EXIT_SLEEP_MODE, []), (Dcs.SET_DISPLAY_ON, [])]
          ++ frames (mipi_display_set_address_xyxy cfg 0 0
              (u16 (cfg.width + 65535)) (u16 (cfg.height + 65535))).trace
      ∧ (frames (mipi_display_set_address_xyxy cfg 0 0
            (u16 (cfg.width + 65535)) (u16 (cfg.height + 65535))).trace).getLast?
          = some (Dcs.WRITE_MEMORY_START, [])
      ∧ (frames (mipi_display_init b cfg).trace).getLast?
          = some (Dcs.WRITE_MEMORY_START, []) := by
  have htail : ∀ D : List Event, D.foldr frame_step ([], []) = ([], []) →
      (leading_data ((mipi_display_set_address_xyxy cfg 0 0
          (u16 (cfg.width + 65535)) (u16 (cfg.height + 65535))).trace ++ D),
        frames ((mipi_display_set_address_xyxy cfg 0 0
          (u16 (cfg.width + 65535)) (u16 (cfg.height + 65535))).trace ++ D))
      = ([], frames (mipi_display_set_address_xyxy cfg 0 0
          (u16 (cfg.width + 65535)) (u16 (cfg.height + 65535))).trace) := by
    intro D hD
    rw [decode_append, decode_eq_foldr D, hD, foldr_frame_step_set_address_xyxy,
      frames_set_address_xyxy]
  have hmain : frames (mipi_display_init b cfg).trace
      = [(Dcs.SOFT_RESET, []), (Dcs.SET_ADDRESS_MODE, [cfg.address_mode]),
          (Dcs.SET_PIXEL_FORMAT, [cfg.pixel_format])]
        ++ (if cfg.pin_te > 0 then [(Dcs.SET_TEAR_ON, [b.MIPI_DCS_SET_TEAR_ON_VSYNC])]
            else [])
        ++ [(if cfg.invert > 0 then Dcs.ENTER_INVERT_MODE else Dcs.EXIT_INVERT_MODE, [])]
        ++ [(Dcs.EXIT_SLEEP_MODE, []), (Dcs.SET_DISPLAY_ON, [])]
        ++ frames (mipi_display_set_address_xyxy cfg 0 0
            (u16 (cfg.width + 65535)) (u16 (cfg.height + 65535))).trace := by
    have hD : (if (b.HAGL_HAS_HAL_BACK_BUFFER && b.HAGL_HAL_USE_DMA) = true then
          mipi_display_dma_init (mipi_display_set_address_xyxy cfg 0 0
            (u16 (cfg.width + 65535)) (u16 (cfg.height + 65535))).cfg
        else []).foldr frame_step ([], []) = ([], []) := by
      rw [foldr_frame_step_ite, foldr_frame_step_dma_init]
      simp
    have ht := htail _ hD
    simp only [Prod.mk.injEq] at ht
    simp only [mipi_display_init, List.append_assoc]
    rw [frames_append, ht.1, ht.2]
    simp only [mipi_display_init_head, List.foldr_append, foldr_frame_step_ite,
      foldr_frame_step_write_command, foldr_frame_step_write_data,
      foldr_frame_step_spi_master_init, List.foldr_cons, List.foldr_nil, frame_step, ite_self]
    split <;> split <;> simp [List.range_succ]
  have hlast : (frames (mipi_display_set_address_xyxy cfg 0 0
      (u16 (cfg.width + 65535)) (u16 (cfg.height + 65535))).trace).getLast?
      = some (Dcs.WRITE_MEMORY_START, []) := by
    rw [frames_set_address_xyxy]
    simp
  refine ⟨hmain, hlast, ?_⟩
  rw [hmain, List.getLast?_append, hlast]
  rfl

/-! ## Flush of the double buffer backend -/

/-- C10 (as stated, refuted): for a 32768 x 32768 back buffer at depth 8 the
length `size * depth / 8` wraps to zero: `flush` programs the window and
sends no byte of the back buffer, while it returns `32768 * 32768`. -/
theorem flush_overflow :
    (flush sample_build huge_cfg_bb []).map (fun o => (o.trace, o.ret))
      = some ((mipi_display_set_address_xyxy huge_cfg_bb 0 0 32767 32767).trace,
          32768 * 32768) := by
  simp [flush, huge_cfg_bb, sample_cfg, sample_build, mipi_display_write_xywh, u32,
    write_xywh_data, mipi_display_write_data, (set_address_xyxy_u16 _ _ _ _ _).1, u16]

/-- C10 (amended): in a build with pixel size 1, for every config at depth 8
whose back buffer has width `W > 0`, height `H > 0`, `W * H < 2^29` and
holds `W * H` bytes, and for all readings of the tearing-effect pin on which
the wait ends (always when `pin_te` is unset): `flush` returns, and after
the pin reads it performs exactly one region write, namely what
`mipi_display_set_address_xyxy` does for `(0, 0)-(W - 1, H - 1)` followed by one data
phase that carries the bytes of the back buffer in order; write-memory-start
is issued once, and the value returned is `W * H`. -/
theorem flush_pixel_size_1 (b : Build) (cfg : mipi_display_config_t) (bb : hagl_bitmap_t)
    (readings : List Bool) (hps : b.HAGL_HAL_PIXEL_SIZE = 1) (hbb : cfg.bb = some bb)
    (hd : cfg.depth = 8) (hW : 0 < bb.width) (hH : 0 < bb.height)
    (hlt : bb.width * bb.height < 536870912)
    (hlen : bb.buffer.length = bb.width * bb.height)
    (hte : cfg.pin_te > 0 → true ∈ readings) :
    (flush b cfg readings).map (fun o => o.trace)
        = some (te_reads cfg readings
            ++ (mipi_display_set_address_xyxy cfg 0 0 (bb.width - 1) (bb.height - 1)).trace
            ++ write_xywh_data b
                (mipi_display_set_address_xyxy cfg 0 0 (bb.width - 1) (bb.height - 1)).cfg
                bb.buffer (bb.width * bb.height))
      ∧ carried (write_xywh_data b
            (mipi_display_set_address_xyxy cfg 0 0 (bb.width - 1) (bb.height - 1)).cfg
            bb.buffer (bb.width * bb.height)) = bb.buffer
      ∧ data_length (write_xywh_data b
            (mipi_display_set_address_xyxy cfg 0 0 (bb.width - 1) (bb.height - 1)).cfg
            bb.buffer (bb.width * bb.height)) = bb.width * bb.height
      ∧ (flush b cfg readings).map (fun o => (commands o.trace).count Dcs.WRITE_MEMORY_START)
        = some 1
      ∧ (flush b cfg readings).map (fun o => o.cfg.prev_clip)
        = some { x0 := u16 (0 + cfg.offset_x), y0 := u16 (0 + cfg.offset_y),
                 x1 := u16 (bb.width - 1 + cfg.offset_x),
                 y1 := u16 (bb.height - 1 + cfg.offset_y) }
      ∧ (flush b cfg readings).map (fun o => o.ret) = some (bb.width * bb.height) := by
  have hwait : (if cfg.pin_te > 0 then wait_te cfg.pin_te readings else some [])
      = some (te_reads cfg readings) := by
    unfold te_reads
    split
    · next hp => rw [wait_te_eq, if_pos (hte hp)]
    · rfl
  have hlt8 : bb.width * bb.height * cfg.depth < 4294967296 := by rw [hd]; omega
  have hlen8 := write_xywh_length bb.width bb.height cfg.depth (Or.inl hd) hlt8
  have hdiv : cfg.depth / 8 = 1 := by rw [hd]
  rw [hdiv, Nat.mul_one] at hlen8
  have h0 : ¬ (bb.width = 0 ∨ bb.height = 0) := by omega
  have hflush : flush b cfg readings
      = some { cfg := (mipi_display_set_address_xyxy cfg 0 0 (bb.width - 1) (bb.height - 1)).cfg
               trace := te_reads cfg readings
                 ++ ((mipi_display_set_address_xyxy cfg 0 0 (bb.width - 1) (bb.height - 1)).trace
                 ++ write_xywh_data b
                    (mipi_display_set_address_xyxy cfg 0 0 (bb.width - 1) (bb.height - 1)).cfg
                    bb.buffer (bb.width * bb.height))
               ret := bb.width * bb.height } := by
    have hret : u32 (u32 (bb.width * bb.height) * (cfg.depth / 8)) = bb.width * bb.height := by
      rw [hdiv, Nat.mul_one]
      simp only [u32]
      rw [Nat.mod_mod, Nat.mod_eq_of_lt (by omega)]
    simp only [flush, hwait, hbb, hps, if_true, mipi_display_write_xywh, h0, if_false,
      hlen8, hret, Nat.zero_add, (set_address_xyxy_u16 cfg 0 0 _ _).1,
      (set_address_xyxy_u16 cfg 0 0 _ _).2]
  have hte_cmd : commands (te_reads cfg readings) = [] := by
    unfold te_reads
    split
    · rw [commands_append]
      simp [commands, List.filterMap_map, Function.comp_def]
    · rfl
  refine ⟨?_, ?_, data_length_write_xywh_data _ _ _ _, ?_, ?_, ?_⟩
  · rw [hflush]; simp
  · rw [carried_write_xywh_data, ← hlen, range_map_getD]
  · rw [hflush]
    simp only [Option.map_some']
    rw [commands_append, commands_append, hte_cmd, commands_write_xywh_data,
      commands_set_address_xyxy]
    split <;> split <;> simp
  · rw [hflush]
    simp only [Option.map_some', set_address_xyxy_cfg]
  · rw [hflush]; rfl

/-- The statement of `flush_pixel_size_1` at the 4 x 4 back buffer: one write of
16 bytes to `(0, 0)-(3, 3)`. -/
theorem flush_pixel_size_1_witness :
    (sample_build.HAGL_HAL_PIXEL_SIZE = 1 ∧ sample_cfg_bb.depth = 8 ∧ 0 < 4
        ∧ 4 * 4 < 536870912
        ∧ [0, 1, 2, 3, 4, 5, 6, 7, 8, 9, 10, 11, 12, 13, 14, 15].length = 4 * 4)
      ∧ (flush sample_build sample_cfg_bb []).map (fun o => o.trace)
        = some (te_reads sample_cfg_bb []
            ++ (mipi_display_set_address_xyxy sample_cfg_bb 0 0 (4 - 1) (4 - 1)).trace
            ++ write_xywh_data sample_build
                (mipi_display_set_address_xyxy sample_cfg_bb 0 0 (4 - 1) (4 - 1)).cfg
                [0, 1, 2, 3, 4, 5, 6, 7, 8, 9, 10, 11, 12, 13, 14, 15] (4 * 4))
      ∧ carried (write_xywh_data sample_build
            (mipi_display_set_address_xyxy sample_cfg_bb 0 0 (4 - 1) (4 - 1)).cfg
            [0, 1, 2, 3, 4, 5, 6, 7, 8, 9, 10, 11, 12, 13, 14, 15] (4 * 4))
        = [0, 1, 2, 3, 4, 5, 6, 7, 8, 9, 10, 11, 12, 13, 14, 15]
      ∧ data_length (write_xywh_data sample_build
            (mipi_display_set_address_xyxy sample_cfg_bb 0 0 (4 - 1) (4 - 1)).cfg
            [0, 1, 2, 3, 4, 5, 6, 7, 8, 9, 10, 11, 12, 13, 14, 15] (4 * 4)) = 4 * 4
      ∧ (flush sample_build sample_cfg_bb []).map
          (fun o => (commands o.trace).count Dcs.WRITE_MEMORY_START) = some 1
      ∧ (flush sample_build sample_cfg_bb []).map (fun o => o.cfg.prev_clip)
        = some { x0 := u16 (0 + sample_cfg_bb.offset_x), y0 := u16 (0 + sample_cfg_bb.offset_y),
                 x1 := u16 (4 - 1 + sample_cfg_bb.offset_x),
                 y1 := u16 (4 - 1 + sample_cfg_bb.offset_y) }
      ∧ (flush sample_build sample_cfg_bb []).map (fun o => o.ret) = some (4 * 4) :=
  ⟨by decide,
    flush_pixel_size_1 sample_build sample_cfg_bb
      { width := 4, height := 4, depth := 8,
        buffer := [0, 1, 2, 3, 4, 5, 6, 7, 8, 9, 10, 11, 12, 13, 14, 15] }
      [] rfl rfl rfl (by decide) (by decide) (by decide) rfl (by decide)⟩

/-! ## The cached window and the parameter bytes -/

/-- The parameter bytes of a range of two 16-bit coordinates are the high and
the low byte of each. -/
theorem range_bytes_u16 (a b : Nat) :
    range_bytes (u16 a) (u16 b)
      = [u16 a / 256, u16 a % 256, u16 b / 256, u16 b % 256] := by
  have hbyte : ∀ n : Nat, n < 65536 →
      (n >>> 8) % 256 = n / 256 ∧ (n &&& 0xff) % 256 = n % 256 := by
    intro n hn
    have hand : n &&& 0xff = n % 256 := Nat.and_pow_two_sub_one_eq_mod n 8
    rw [hand, Nat.shiftRight_eq_div_pow]
    constructor
    · exact Nat.mod_eq_of_lt (by omega)
    · exact Nat.mod_mod _ _
  have ha : u16 a < 65536 := Nat.mod_lt _ (by decide)
  have hb : u16 b < 65536 := Nat.mod_lt _ (by decide)
  simp only [range_bytes, (hbyte _ ha).1, (hbyte _ ha).2, (hbyte _ hb).1, (hbyte _ hb).2]

/-- C14: for every config and all `x1`, `y1`, `x2`, `y2`, after
`mipi_display_set_address_xyxy` the cached window is the four arguments plus the
offsets, modulo `2^16`, whatever the cache held before; the transactions of
the call are the column range (if issued), the page range (if issued) and
write-memory-start, a range command being followed by exactly four bytes:
high byte then low byte of the start, then of the end coordinate; every
byte is below 256 and `high * 256 + low` gives back the cached values. -/
theorem set_address_xyxy_window_and_bytes (cfg : mipi_display_config_t)
    (x1 y1 x2 y2 : Nat) :
    (mipi_display_set_address_xyxy cfg x1 y1 x2 y2).cfg.prev_clip
        = { x0 := (x1 + cfg.offset_x) % 65536, x1 := (x2 + cfg.offset_x) % 65536,
            y0 := (y1 + cfg.offset_y) % 65536, y1 := (y2 + cfg.offset_y) % 65536 }
      ∧ frames (mipi_display_set_address_xyxy cfg x1 y1 x2 y2).trace
        = (if cfg.prev_clip.x0 ≠ (x1 + cfg.offset_x) % 65536
              ∨ cfg.prev_clip.x1 ≠ (x2 + cfg.offset_x) % 65536 then
            [(Dcs.SET_COLUMN_ADDRESS,
              [(x1 + cfg.offset_x) % 65536 / 256, (x1 + cfg.offset_x) % 65536 % 256,
               (x2 + cfg.offset_x) % 65536 / 256, (x2 + cfg.offset_x) % 65536 % 256])]
           else [])
          ++ (if cfg.prev_clip.y0 ≠ (y1 + cfg.offset_y) % 65536
                ∨ cfg.prev_clip.y1 ≠ (y2 + cfg.offset_y) % 65536 then
              [(Dcs.SET_PAGE_ADDRESS,
                [(y1 + cfg.offset_y) % 65536 / 256, (y1 + cfg.offset_y) % 65536 % 256,
                 (y2 + cfg.offset_y) % 65536 / 256, (y2 + cfg.offset_y) % 65536 % 256])]
             else [])
          ++ [(Dcs.WRITE_MEMORY_START, [])]
      ∧ ((x1 + cfg.offset_x) % 65536 / 256 < 256 ∧ (x1 + cfg.offset_x) % 65536 % 256 < 256
          ∧ (x2 + cfg.offset_x) % 65536 / 256 < 256 ∧ (x2 + cfg.offset_x) % 65536 % 256 < 256
          ∧ (y1 + cfg.offset_y) % 65536 / 256 < 256 ∧ (y1 + cfg.offset_y) % 65536 % 256 < 256
          ∧ (y2 + cfg.offset_y) % 65536 / 256 < 256 ∧ (y2 + cfg.offset_y) % 65536 % 256 < 256)
      ∧ (x1 + cfg.offset_x) % 65536 / 256 * 256 + (x1 + cfg.offset_x) % 65536 % 256
          = (mipi_display_set_address_xyxy cfg x1 y1 x2 y2).cfg.prev_clip.x0
      ∧ (x2 + cfg.offset_x) % 65536 / 256 * 256 + (x2 + cfg.offset_x) % 65536 % 256
          = (mipi_display_set_address_xyxy cfg x1 y1 x2 y2).cfg.prev_clip.x1
      ∧ (y1 + cfg.offset_y) % 65536 / 256 * 256 + (y1 + cfg.offset_y) % 65536 % 256
          = (mipi_display_set_address_xyxy cfg x1 y1 x2 y2).cfg.prev_clip.y0
      ∧ (y2 + cfg.offset_y) % 65536 / 256 * 256 + (y2 + cfg.offset_y) % 65536 % 256
          = (mipi_display_set_address_xyxy cfg x1 y1 x2 y2).cfg.prev_clip.y1 := by
  have hclip : (mipi_display_set_address_xyxy cfg x1 y1 x2 y2).cfg.prev_clip
      = { x0 := (x1 + cfg.offset_x) % 65536, x1 := (x2 + cfg.offset_x) % 65536,
          y0 := (y1 + cfg.offset_y) % 65536, y1 := (y2 + cfg.offset_y) % 65536 } := by
    rw [set_address_xyxy_cfg]
    rfl
  refine ⟨hclip, ?_, ?_, ?_, ?_, ?_, ?_⟩
  · rw [frames_set_address_xyxy, range_bytes_u16, range_bytes_u16]
    rfl
  · omega
  · rw [hclip]; show _ = (x1 + cfg.offset_x) % 65536; omega
  · rw [hclip]; show _ = (x2 + cfg.offset_x) % 65536; omega
  · rw [hclip]; show _ = (y1 + cfg.offset_y) % 65536; omega
  · rw [hclip]; show _ = (y2 + cfg.offset_y) % 65536; omega

/-! ## The DMA data phase -/

/-- C13: for every two consecutive `mipi_display_write_data_dma` calls with non-zero
lengths, the trace is: data/command high, chip select low, wait for the
channel, transfer count, transfer start, and the same five events again.
Each start comes directly after the wait of its own call (with the
programming of the transfer count, which starts nothing, in between), so the
second transfer is started only after the wait that follows the first start;
and a call with length zero does nothing, so it starts no transfer. -/
theorem write_data_dma_awaits_previous (cfg1 cfg2 : mipi_display_config_t)
    (buffer1 buffer2 : List Nat) (n1 n2 : Nat) (h1 : 0 < n1) (h2 : 0 < n2) :
    mipi_display_write_data_dma cfg1 buffer1 n1 ++ mipi_display_write_data_dma cfg2 buffer2 n2
        = [Event.gpio_put cfg1.pin_dc 1, Event.gpio_put cfg1.pin_cs 0,
           Event.dma_channel_wait_for_finish_blocking,
           Event.dma_channel_set_trans_count n1,
           Event.dma_channel_set_read_addr buffer1,
           Event.gpio_put cfg2.pin_dc 1, Event.gpio_put cfg2.pin_cs 0,
           Event.dma_channel_wait_for_finish_blocking,
           Event.dma_channel_set_trans_count n2,
           Event.dma_channel_set_read_addr buffer2]
      ∧ dma_starts_awaited (mipi_display_write_data_dma cfg1 buffer1 n1
          ++ mipi_display_write_data_dma cfg2 buffer2 n2) = true
      ∧ dma_starts_awaited (mipi_display_write_data_dma cfg1 buffer1 n1) = true
      ∧ dma_starts_awaited (mipi_display_write_data_dma cfg2 buffer2 n2) = true
      ∧ dma_starts (mipi_display_write_data_dma cfg1 buffer1 n1
          ++ mipi_display_write_data_dma cfg2 buffer2 n2) = [buffer1, buffer2]
      ∧ mipi_display_write_data_dma cfg1 buffer1 0 = []
      ∧ dma_starts (mipi_display_write_data_dma cfg1 buffer1 0) = [] := by
  have e1 : ¬ n1 = 0 := by omega
  have e2 : ¬ n2 = 0 := by omega
  refine ⟨?_, ?_, ?_, ?_, ?_, ?_, ?_⟩ <;>
    simp [mipi_display_write_data_dma, e1, e2, dma_starts_awaited, dma_starts_awaited_from,
      dma_starts]

/-- The statement of `write_data_dma_awaits_previous` at two transfers of 16 and 4 bytes. -/
theorem write_data_dma_awaits_previous_witness :
    (0 < 16 ∧ 0 < 4)
      ∧ mipi_display_write_data_dma sample_cfg [1, 2] 16
          ++ mipi_display_write_data_dma sample_cfg [3] 4
        = [Event.gpio_put sample_cfg.pin_dc 1, Event.gpio_put sample_cfg.pin_cs 0,
           Event.dma_channel_wait_for_finish_blocking,
           Event.dma_channel_set_trans_count 16,
           Event.dma_channel_set_read_addr [1, 2],
           Event.gpio_put sample_cfg.pin_dc 1, Event.gpio_put sample_cfg.pin_cs 0,
           Event.dma_channel_wait_for_finish_blocking,
           Event.dma_channel_set_trans_count 4,
           Event.dma_channel_set_read_addr [3]]
      ∧ dma_starts_awaited (mipi_display_write_data_dma sample_cfg [1, 2] 16
          ++ mipi_display_write_data_dma sample_cfg [3] 4) = true
      ∧ dma_starts_awaited (mipi_display_write_data_dma sample_cfg [1, 2] 16) = true
      ∧ dma_starts_awaited (mipi_display_write_data_dma sample_cfg [3] 4) = true
      ∧ dma_starts (mipi_display_write_data_dma sample_cfg [1, 2] 16
          ++ mipi_display_write_data_dma sample_cfg [3] 4) = [[1, 2], [3]]
      ∧ mipi_display_write_data_dma sample_cfg [1, 2] 0 = []
      ∧ dma_starts (mipi_display_write_data_dma sample_cfg [1, 2] 0) = [] :=
  ⟨by decide, write_data_dma_awaits_previous sample_cfg sample_cfg [1, 2] [3] 16 4
    (by decide) (by decide)⟩

/-! ## The wait for the tearing-effect pin -/

theorem wait_te_eq_events (pin : Int) (readings : List Bool) :
    wait_te pin readings
      = if true ∈ readings then some (wait_te_events pin readings) else none := by
  induction readings with
  | nil => rfl
  | cons level rest ih =>
    cases level
    · by_cases h : true ∈ rest
      · simp [wait_te, wait_te_events, ih, h]
      · simp [wait_te, wait_te_events, ih, h]
    · simp [wait_te, wait_te_events]

theorem wait_te_events_eq (pin : Int) (readings : List Bool) :
    wait_te_events pin readings
      = (readings.takeWhile (fun level => !level)).map (fun _ => Event.gpio_get pin false)
        ++ (if true ∈ readings then [Event.gpio_get pin true] else []) := by
  induction readings with
  | nil => rfl
  | cons level rest ih =>
    cases level
    · by_cases h : true ∈ rest
      · simp [wait_te_events, ih, h, List.takeWhile]
      · simp [wait_te_events, ih, h, List.takeWhile]
    · simp [wait_te_events, List.takeWhile]

theorem commands_wait_te_events (pin : Int) (readings : List Bool) :
    commands (wait_te_events pin readings) = [] := by
  induction readings with
  | nil => rfl
  | cons level rest ih =>
    cases level
    · simpa [wait_te_events, commands] using ih
    · simp [wait_te_events, commands]

theorem data_length_wait_te_events (pin : Int) (readings : List Bool) :
    data_length (wait_te_events pin readings) = 0 := by
  induction readings with
  | nil => rfl
  | cons level rest ih =>
    cases level
    · simpa [wait_te_events, data_length, Event.data_length] using ih
    · simp [wait_te_events, data_length, Event.data_length]

theorem pin_reads_nil : pin_reads [] = [] := rfl

theorem pin_reads_append (s t : List Event) :
    pin_reads (s ++ t) = pin_reads s ++ pin_reads t := by
  simp [pin_reads, List.filterMap_append]

theorem pin_reads_write_command (cfg : mipi_display_config_t) (c : Dcs) :
    pin_reads (mipi_display_write_command cfg c) = [] := by
  simp [pin_reads, mipi_display_write_command]

theorem pin_reads_write_data (cfg : mipi_display_config_t) (data : List Nat) (length : Nat) :
    pin_reads (mipi_display_write_data cfg data length) = [] := by
  unfold mipi_display_write_data
  split
  · rfl
  · simp [pin_reads, write_data_loop, List.filterMap_map, Function.comp_def]

theorem pin_reads_write_data_dma (cfg : mipi_display_config_t) (buffer : List Nat)
    (length : Nat) : pin_reads (mipi_display_write_data_dma cfg buffer length) = [] := by
  unfold mipi_display_write_data_dma
  split <;> simp [pin_reads]

theorem pin_reads_set_address_xyxy (cfg : mipi_display_config_t) (x1 y1 x2 y2 : Nat) :
    pin_reads (mipi_display_set_address_xyxy cfg x1 y1 x2 y2).trace = [] := by
  rw [set_address_xyxy_trace]
  split <;> split <;>
    simp only [pin_reads_append, pin_reads_write_command, pin_reads_write_data,
      pin_reads_nil, List.append_nil]

/-- No region write reads a pin. -/
theorem pin_reads_write_xywh (b : Build) (cfg : mipi_display_config_t) (x1 y1 w h : Nat)
    (buffer : List Nat) :
    pin_reads (mipi_display_write_xywh b cfg x1 y1 w h buffer).trace = [] := by
  unfold mipi_display_write_xywh
  split
  · rfl
  · simp only [pin_reads_append, pin_reads_set_address_xyxy, List.nil_append]
    unfold write_xywh_data
    split
    · exact pin_reads_write_data _ _ _
    · split
      · exact pin_reads_write_data_dma _ _ _
      · exact pin_reads_write_data _ _ _

theorem pin_reads_flush_scanlines (b : Build) (buffer : List Nat) (ys : List Nat)
    (acc : Out Nat) :
    pin_reads (flush_scanlines b buffer ys acc).trace = pin_reads acc.trace := by
  induction ys generalizing acc with
  | nil => rfl
  | cons y rest ih =>
    simp only [flush_scanlines]
    rw [ih]
    simp only [pin_reads_append, pin_reads_write_xywh, List.append_nil]

/-- The events an accumulator already holds stay in front of what the scanline
loop adds. -/
theorem flush_scanlines_trace_prefix (b : Build) (buffer : List Nat) (ys : List Nat)
    (cfg : mipi_display_config_t) (t0 t : List Event) (ret : Nat) :
    flush_scanlines b buffer ys { cfg := cfg, trace := t0 ++ t, ret := ret }
      = { cfg := (flush_scanlines b buffer ys { cfg := cfg, trace := t, ret := ret }).cfg
          trace := t0 ++ (flush_scanlines b buffer ys
            { cfg := cfg, trace := t, ret := ret }).trace
          ret := (flush_scanlines b buffer ys { cfg := cfg, trace := t, ret := ret }).ret } := by
  induction ys generalizing cfg t ret with
  | nil => rfl
  | cons y rest ih =>
    simp only [flush_scanlines, List.append_assoc]
    exact ih _ _ _

/-- The function `flush` is the wait for the tearing-effect pin, when the pin is set,
followed by the transfer. -/
theorem flush_eq_wait_then_transfer (b : Build) (cfg : mipi_display_config_t)
    (readings : List Bool) :
    flush b cfg readings
      = if cfg.pin_te > 0 then
          if true ∈ readings then
            (flush_transfer b cfg).map (fun o =>
              { cfg := o.cfg, trace := wait_te_events cfg.pin_te readings ++ o.trace,
                ret := o.ret })
          else none
        else flush_transfer b cfg := by
  have key : ∀ waited : List Event,
      (match cfg.bb with
        | none => none
        | some bb =>
          if b.HAGL_HAL_PIXEL_SIZE = 1 then
            some { cfg := (mipi_display_write_xywh b cfg 0 0 bb.width bb.height bb.buffer).cfg
                   trace := waited
                     ++ (mipi_display_write_xywh b cfg 0 0 bb.width bb.height bb.buffer).trace
                   ret := (mipi_display_write_xywh b cfg 0 0 bb.width bb.height bb.buffer).ret }
          else if b.HAGL_HAL_PIXEL_SIZE = 2 then
            if b.HAGL_PICO_MIPI_DISPLAY_HEIGHT < 65536
                ∧ b.HAGL_PICO_MIPI_DISPLAY_WIDTH < 65536 then
              some (flush_scanlines b bb.buffer (List.range b.HAGL_PICO_MIPI_DISPLAY_HEIGHT)
                { cfg := cfg, trace := waited, ret := 0 })
            else none
          else none : Option (Out Nat))
        = (flush_transfer b cfg).map (fun o =>
            { cfg := o.cfg, trace := waited ++ o.trace, ret := o.ret }) := by
    intro waited
    unfold flush_transfer
    cases cfg.bb with
    | none => rfl
    | some bb =>
      simp only
      split
      · rfl
      · split
        · split
          · have h := flush_scanlines_trace_prefix b bb.buffer
              (List.range b.HAGL_PICO_MIPI_DISPLAY_HEIGHT) cfg waited [] 0
            rw [List.append_nil] at h
            rw [h]
            rfl
          · rfl
        · rfl
  unfold flush
  by_cases hp : cfg.pin_te > 0
  · simp only [hp, if_true, wait_te_eq_events]
    by_cases hr : true ∈ readings
    · simp only [hr, if_true]
      exact key _
    · simp only [hr, if_false]
  · simp only [hp, if_false]
    rw [key []]
    cases flush_transfer b cfg with
    | none => rfl
    | some o => rfl

/-- C12: for every build, config and list of levels read from the tearing-effect
pin. When `pin_te <= 0`, `flush` is the transfer alone, and the transfer
reads no pin. When `pin_te > 0`, `flush` has not returned as long as no
reading is asserted, and otherwise it is the reads of the pin, one per level
up to and including the first asserted one, followed directly by the
transfer. The reads of the wait, ended or not, hold no command and no data
byte, so nothing of the address window or the data is sent before the pin
has read asserted. -/
theorem flush_waits_for_te (b : Build) (cfg : mipi_display_config_t)
    (readings : List Bool) :
    flush b cfg readings
        = (if cfg.pin_te > 0 then
            if true ∈ readings then
              (flush_transfer b cfg).map (fun o =>
                { cfg := o.cfg, trace := wait_te_events cfg.pin_te readings ++ o.trace,
                  ret := o.ret })
            else none
          else flush_transfer b cfg)
      ∧ wait_te_events cfg.pin_te readings
        = (readings.takeWhile (fun level => !level)).map
              (fun _ => Event.gpio_get cfg.pin_te false)
            ++ (if true ∈ readings then [Event.gpio_get cfg.pin_te true] else [])
      ∧ commands (wait_te_events cfg.pin_te readings) = []
      ∧ data_length (wait_te_events cfg.pin_te readings) = 0
      ∧ (flush_transfer b cfg).map (fun o => pin_reads o.trace)
        = (flush_transfer b cfg).map (fun _ => []) := by
  refine ⟨flush_eq_wait_then_transfer b cfg readings, wait_te_events_eq _ _,
    commands_wait_te_events _ _, data_length_wait_te_events _ _, ?_⟩
  unfold flush_transfer
  cases cfg.bb with
  | none => rfl
  | some bb =>
    simp only
    split
    · simp [pin_reads_write_xywh]
    · split
      · split
        · simp only [Option.map_some', pin_reads_flush_scanlines, pin_reads_nil]
        · rfl
      · rfl

/-! ## Flush with pixel size 2 -/

theorem flatMap_range_twice {α : Type} (f : Nat → List α) (n : Nat) :
    (List.range n).flatMap (fun x => f x ++ f x)
      = (List.range (2 * n)).flatMap (fun c => f (c / 2)) := by
  induction n with
  | zero => rfl
  | succ n ih =>
    have h2 : 2 * (n + 1) = (2 * n + 1) + 1 := by omega
    have d1 : 2 * n / 2 = n := by omega
    have d2 : (2 * n + 1) / 2 = n := by omega
    rw [List.range_succ, List.flatMap_append, ih, h2, List.range_succ, List.range_succ]
    simp only [List.flatMap_append, List.flatMap_cons, List.flatMap_nil, List.append_nil,
      List.append_assoc, d1, d2]

theorem flatMap_range_pairs {α : Type} (g : Nat → α) (n : Nat) :
    (List.range n).flatMap (fun y => [g (2 * y), g (2 * y + 1)])
      = (List.range (2 * n)).map g := by
  induction n with
  | zero => rfl
  | succ n ih =>
    have h2 : 2 * (n + 1) = (2 * n + 1) + 1 := by omega
    rw [List.range_succ, List.flatMap_append, ih, h2, List.range_succ, List.range_succ]
    simp only [List.flatMap_cons, List.flatMap_nil, List.append_nil, List.map_append,
      List.map_cons, List.map_nil, List.append_assoc, List.cons_append, List.nil_append]

/-- The array `line` that `flush` fills for row `y` is the doubled row of the spec. -/
theorem flush_line_eq_doubled_row (b : Build) (buffer : List Nat) (y : Nat) :
    flush_line b buffer y = doubled_row b buffer b.HAGL_PICO_MIPI_DISPLAY_WIDTH y := by
  unfold flush_line doubled_row
  exact flatMap_range_twice
    (fun x => color_at b buffer (y * b.HAGL_PICO_MIPI_DISPLAY_WIDTH + x)) _

theorem length_doubled_row (b : Build) (buffer : List Nat) (W y : Nat) :
    (doubled_row b buffer W y).length = 2 * W * b.sizeof_hagl_color_t := by
  unfold doubled_row
  rw [List.length_flatMap]
  have hconst : (List.length ∘ fun c => color_at b buffer (y * W + c / 2))
      = fun _ => b.sizeof_hagl_color_t := by
    funext c
    simp [color_at]
  rw [hconst, List.map_const', List.sum_replicate]
  simp

/-- The scanline loop of `flush` is a sequence of region writes: two per row,
with `line` as the buffer. -/
theorem flush_scanlines_eq_write_regions (b : Build) (buffer : List Nat) (ys : List Nat)
    (acc : Out Nat) :
    flush_scanlines b buffer ys acc
      = write_regions b
          (ys.flatMap (fun y =>
            [{ x1 := 0, y1 := u16 (y * 2), w := u16 b.MIPI_DISPLAY_WIDTH, h := 1,
               buffer := flush_line b buffer y },
             { x1 := 0, y1 := u16 (y * 2 + 1), w := u16 b.MIPI_DISPLAY_WIDTH, h := 1,
               buffer := flush_line b buffer y }]))
          acc := by
  induction ys generalizing acc with
  | nil => rfl
  | cons y rest ih =>
    simp only [flush_scanlines, List.flatMap_cons, List.cons_append, List.nil_append,
      write_regions]
    exact ih _

theorem flatMap_range_congr {α : Type} (f g : Nat → List α) (n : Nat)
    (h : ∀ y, y < n → f y = g y) :
    (List.range n).flatMap f = (List.range n).flatMap g := by
  induction n with
  | zero => rfl
  | succ n ih =>
    rw [List.range_succ, List.flatMap_append, List.flatMap_append,
      ih (fun y hy => h y (by omega))]
    simp only [List.flatMap_cons, List.flatMap_nil, List.append_nil]
    rw [h n (by omega)]

/-- The writes of the scanline loop over the rows `0 .. H - 1` are the region
writes of the spec, when the physical width `2 * W` and the row numbers fit
`uint16_t`. -/
theorem flush_rows_eq_scanline_writes (b : Build) (buffer : List Nat) (W H : Nat)
    (hW : b.HAGL_PICO_MIPI_DISPLAY_WIDTH = W) (hMW : b.MIPI_DISPLAY_WIDTH = 2 * W)
    (hWlt : 2 * W < 65536) (hHlt : 2 * H < 65536) :
    (List.range H).flatMap (fun y =>
        [({ x1 := 0, y1 := u16 (y * 2), w := u16 b.MIPI_DISPLAY_WIDTH, h := 1,
            buffer := flush_line b buffer y } : xywh_write),
         { x1 := 0, y1 := u16 (y * 2 + 1), w := u16 b.MIPI_DISPLAY_WIDTH, h := 1,
           buffer := flush_line b buffer y }])
      = scanline_writes b buffer W H := by
  unfold scanline_writes
  rw [← flatMap_range_pairs]
  apply flatMap_range_congr
  intro y hy
  have d1 : 2 * y / 2 = y := by omega
  have d2 : (2 * y + 1) / 2 = y := by omega
  have u1 : u16 (y * 2) = 2 * y := by
    unfold u16
    omega
  have u2 : u16 (y * 2 + 1) = 2 * y + 1 := by
    unfold u16
    omega
  have u3 : u16 b.MIPI_DISPLAY_WIDTH = 2 * W := by
    unfold u16
    omega
  rw [u1, u2, u3, d1, d2, flush_line_eq_doubled_row, hW]

/-- The value `mipi_display_write_xywh` returns, empty regions included. -/
theorem write_xywh_ret_all (b : Build) (cfg : mipi_display_config_t) (x1 y1 w h : Nat)
    (buffer : List Nat) :
    (mipi_display_write_xywh b cfg x1 y1 w h buffer).ret = u32 (w * h * (cfg.depth / 8)) := by
  by_cases h0 : w = 0 ∨ h = 0
  · have hz : w * h = 0 := by
      rcases h0 with h0 | h0 <;> simp [h0]
    simp [mipi_display_write_xywh, h0, hz, u32]
  · simp [mipi_display_write_xywh, h0, u32, Nat.mod_mul_mod]

theorem write_xywh_cfg_depth (b : Build) (cfg : mipi_display_config_t) (x1 y1 w h : Nat)
    (buffer : List Nat) :
    (mipi_display_write_xywh b cfg x1 y1 w h buffer).cfg.depth = cfg.depth := by
  unfold mipi_display_write_xywh
  split
  · rfl
  · simp only [set_address_xyxy_cfg]

/-- The total of a sequence of region writes: the running total plus the byte
counts `w * h * (depth / 8)` of the writes, in `size_t`. -/
theorem write_regions_ret (b : Build) (rs : List xywh_write) (acc : Out Nat)
    (hacc : acc.ret < 4294967296) :
    (write_regions b rs acc).ret
      = u32 (acc.ret + (rs.map (fun r => r.w * r.h * (acc.cfg.depth / 8))).sum) := by
  induction rs generalizing acc with
  | nil =>
    simp only [write_regions, List.map_nil, List.sum_nil, Nat.add_zero, u32]
    omega
  | cons r rest ih =>
    simp only [write_regions, List.map_cons, List.sum_cons]
    rw [ih _ (Nat.mod_lt _ (by decide))]
    simp only [write_xywh_cfg_depth, write_xywh_ret_all, u32]
    omega

/-- A non-empty region write issues write-memory-start exactly once. -/
theorem count_wms_write_xywh (b : Build) (cfg : mipi_display_config_t) (x1 y1 w h : Nat)
    (buffer : List Nat) (hw : 0 < w) (hh : 0 < h) :
    (commands (mipi_display_write_xywh b cfg x1 y1 w h buffer).trace).count
      Dcs.WRITE_MEMORY_START = 1 := by
  have h0 : ¬ (w = 0 ∨ h = 0) := by omega
  simp only [mipi_display_write_xywh, h0, if_false]
  rw [commands_append, commands_write_xywh_data, commands_set_address_xyxy]
  split <;> split <;> simp

/-- A sequence of non-empty region writes issues write-memory-start once per write. -/
theorem count_wms_write_regions (b : Build) (rs : List xywh_write) (acc : Out Nat)
    (hrs : ∀ r ∈ rs, 0 < r.w ∧ 0 < r.h) :
    (commands (write_regions b rs acc).trace).count Dcs.WRITE_MEMORY_START
      = (commands acc.trace).count Dcs.WRITE_MEMORY_START + rs.length := by
  induction rs generalizing acc with
  | nil => rfl
  | cons r rest ih =>
    have hr := hrs r (List.mem_cons_self _ _)
    simp only [write_regions]
    rw [ih _ (fun r' hr' => hrs r' (List.mem_cons_of_mem _ hr'))]
    simp only [commands_append, List.count_append, count_wms_write_xywh b _ _ _ _ _ _ hr.1 hr.2,
      List.length_cons]
    omega

theorem length_scanline_writes (b : Build) (buffer : List Nat) (W H : Nat) :
    (scanline_writes b buffer W H).length = 2 * H := by
  simp [scanline_writes]

theorem sum_scanline_writes (b : Build) (buffer : List Nat) (W H d : Nat) :
    ((scanline_writes b buffer W H).map (fun r => r.w * r.h * d)).sum
      = 2 * H * (2 * W * d) := by
  simp [scanline_writes, Function.comp_def]

theorem commands_te_reads (cfg : mipi_display_config_t) (readings : List Bool) :
    commands (te_reads cfg readings) = [] := by
  unfold te_reads
  split
  · rw [commands_append]
    simp [commands, List.filterMap_map, Function.comp_def]
  · rfl

/-- C11 (the code departs from the claim: the pixel size 2 branch of `flush`
reads `bb.buffer`, a member access on the pointer `bb`, and does not
compile). With that access read as `bb->buffer`, as `flush` is modelled, in a
build without DMA, with pixel size 2, for a physical panel of `2 * W` by
`2 * H` (both below `2^16`, `W > 0`), a depth of `sizeof(hagl_color_t)`
bytes, and readings on which the tearing-effect wait ends: `flush` does,
after the pin reads, exactly the `2 * H` region writes of `scanline_writes`,
in that order, that is the physical rows `0 .. 2 * H - 1`, each a scanline
of width `2 * W` and height 1 whose buffer is the doubled logical row
`row / 2` (column `c` holding logical pixel `(c / 2, row / 2)`); the data
phase of each write carries that whole scanline; write-memory-start is
issued `2 * H` times; and the value returned is the total of the writes'
return values `2 * W * (depth / 8)`, added up in `size_t`. -/
theorem flush_pixel_size_2 (b : Build) (cfg : mipi_display_config_t) (bb : hagl_bitmap_t)
    (readings : List Bool) (W H : Nat)
    (hps : b.HAGL_HAL_PIXEL_SIZE = 2) (_hdma : b.HAGL_HAL_USE_DMA = false)
    (hMW : b.MIPI_DISPLAY_WIDTH = 2 * W) (hMH : b.MIPI_DISPLAY_HEIGHT = 2 * H)
    (hW : 0 < W) (hWlt : 2 * W < 65536) (hHlt : 2 * H < 65536)
    (hbb : cfg.bb = some bb) (hd : cfg.depth = 8 * b.sizeof_hagl_color_t)
    (hd8 : cfg.depth < 256) (hte : cfg.pin_te > 0 → true ∈ readings) :
    flush b cfg readings
        = some (write_regions b (scanline_writes b bb.buffer W H)
            { cfg := cfg, trace := te_reads cfg readings, ret := 0 })
      ∧ (scanline_writes b bb.buffer W H).length = 2 * H
      ∧ (flush b cfg readings).map (fun o => (commands o.trace).count Dcs.WRITE_MEMORY_START)
        = some (2 * H)
      ∧ (∀ (cfg' : mipi_display_config_t) (y : Nat),
          carried (write_xywh_data b cfg' (doubled_row b bb.buffer W y)
              (u32 (u32 (2 * W * 1) * cfg.depth) / 8))
            = doubled_row b bb.buffer W y)
      ∧ (flush b cfg readings).map (fun o => o.ret)
        = some (2 * H * (2 * W * (cfg.depth / 8)) % 4294967296) := by
  have hwait : (if cfg.pin_te > 0 then wait_te cfg.pin_te readings else some [])
      = some (te_reads cfg readings) := by
    unfold te_reads
    split
    · next hp => rw [wait_te_eq, if_pos (hte hp)]
    · rfl
  have hW' : b.HAGL_PICO_MIPI_DISPLAY_WIDTH = W := by
    unfold Build.HAGL_PICO_MIPI_DISPLAY_WIDTH
    rw [hMW, hps]
    omega
  have hH' : b.HAGL_PICO_MIPI_DISPLAY_HEIGHT = H := by
    unfold Build.HAGL_PICO_MIPI_DISPLAY_HEIGHT
    rw [hMH, hps]
    omega
  have hbound : b.HAGL_PICO_MIPI_DISPLAY_HEIGHT < 65536
      ∧ b.HAGL_PICO_MIPI_DISPLAY_WIDTH < 65536 := by
    rw [hW', hH']
    omega
  have hflush : flush b cfg readings
      = some (write_regions b (scanline_writes b bb.buffer W H)
          { cfg := cfg, trace := te_reads cfg readings, ret := 0 }) := by
    have h21 : ¬ (2 : Nat) = 1 := by decide
    simp only [flush, hwait, hbb, hps, h21, if_false, if_true, hbound, and_self]
    rw [flush_scanlines_eq_write_regions, hH',
      flush_rows_eq_scanline_writes b bb.buffer W H hW' hMW hWlt hHlt]
  have hrs : ∀ r ∈ scanline_writes b bb.buffer W H, 0 < r.w ∧ 0 < r.h := by
    intro r hr
    simp only [scanline_writes, List.mem_map] at hr
    obtain ⟨k, _, rfl⟩ := hr
    exact ⟨by show 0 < 2 * W; omega, by show 0 < 1; omega⟩
  refine ⟨hflush, length_scanline_writes _ _ _ _, ?_, ?_, ?_⟩
  · rw [hflush]
    simp only [Option.map_some']
    rw [count_wms_write_regions b _ _ hrs, length_scanline_writes, commands_te_reads]
    simp
  · intro cfg' y
    have hlen : u32 (u32 (2 * W * 1) * cfg.depth) / 8
        = (doubled_row b bb.buffer W y).length := by
      rw [length_doubled_row, hd]
      have hcs : b.sizeof_hagl_color_t < 32 := by omega
      have h1 : u32 (2 * W * 1) = 2 * W := by
        unfold u32
        omega
      have hprod : 2 * W * (8 * b.sizeof_hagl_color_t) = 8 * (2 * W * b.sizeof_hagl_color_t) := by
        ring
      have hlt : 2 * W * b.sizeof_hagl_color_t < 65536 * 32 :=
        Nat.mul_lt_mul'' hWlt hcs
      have h2 : u32 (8 * (2 * W * b.sizeof_hagl_color_t))
          = 8 * (2 * W * b.sizeof_hagl_color_t) := by
        unfold u32
        omega
      rw [h1, hprod, h2, Nat.mul_div_cancel_left _ (by decide : 0 < 8)]
    rw [carried_write_xywh_data, hlen, range_map_getD]
  · rw [hflush]
    simp only [Option.map_some']
    rw [write_regions_ret b _ _ (by show 0 < 4294967296; omega), sum_scanline_writes]
    simp [u32]

/-- The statement of `flush_pixel_size_2` at the 8 x 8 logical back buffer: 16 writes
covering the 16 x 16 panel. -/
theorem flush_pixel_size_2_witness :
    (sample_build_doubled.HAGL_HAL_PIXEL_SIZE = 2
        ∧ sample_build_doubled.HAGL_HAL_USE_DMA = false
        ∧ sample_build_doubled.MIPI_DISPLAY_WIDTH = 2 * 8
        ∧ sample_build_doubled.MIPI_DISPLAY_HEIGHT = 2 * 8
        ∧ 0 < 8 ∧ 2 * 8 < 65536
        ∧ sample_cfg_8x8.depth = 8 * sample_build_doubled.sizeof_hagl_color_t
        ∧ sample_cfg_8x8.depth < 256)
      ∧ flush sample_build_doubled sample_cfg_8x8 []
        = some (write_regions sample_build_doubled
            (scanline_writes sample_build_doubled (List.range 128) 8 8)
            { cfg := sample_cfg_8x8, trace := te_reads sample_cfg_8x8 [], ret := 0 })
      ∧ (scanline_writes sample_build_doubled (List.range 128) 8 8).length = 2 * 8
      ∧ (flush sample_build_doubled sample_cfg_8x8 []).map
          (fun o => (commands o.trace).count Dcs.WRITE_MEMORY_START) = some (2 * 8)
      ∧ (∀ (cfg' : mipi_display_config_t) (y : Nat),
          carried (write_xywh_data sample_build_doubled cfg'
              (doubled_row sample_build_doubled (List.range 128) 8 y)
              (u32 (u32 (2 * 8 * 1) * sample_cfg_8x8.depth) / 8))
            = doubled_row sample_build_doubled (List.range 128) 8 y)
      ∧ (flush sample_build_doubled sample_cfg_8x8 []).map (fun o => o.ret)
        = some (2 * 8 * (2 * 8 * (sample_cfg_8x8.depth / 8)) % 4294967296) :=
  ⟨by decide,
    flush_pixel_size_2 sample_build_doubled sample_cfg_8x8
      { width := 8, height := 8, depth := 16, buffer := List.range 128 } [] 8 8
      rfl rfl rfl rfl (by decide) (by decide) (by decide) rfl rfl (by decide) (by decide)⟩

end HaglPicoMipi
